import Mathlib

/-!
Verification of the flash backup / firmware-update engine of the DS5/AL3D
depth-camera driver (source file src/src/ds5/ds5-device.cpp).

Modelling conventions:

* Device traffic is modelled as a trace of events (`Ev`): hardware-monitor
  commands (`Cmd`) plus progress-callback invocations.  A command event
  records the fields the source puts into the command (opcode, params,
  payload size); the payload bytes of a flash write (cmdFWB.data =
  image[index, index+packet_size)) are determined by the recorded index and
  size and are not duplicated in the event.
* Machine integers become `Nat` (with explicit `% 2^16` where the source
  uses uint16), float progress fractions become `ℚ`.
* Fallible paths return `List Ev × Option Err`: the trace that was emitted
  up to the point of a C++ throw, plus the propagated error (if any).
* Transport failures are injected through explicit failure oracles
  (`fails : Nat → Nat → Bool` for backup chunk attempts, a record stream
  `Nat → AlResult` for the AL3D completion poll, a presence/exception
  oracle for the disconnect-wait loop).
* `ds::FLASH_SECTOR_SIZE` and `HW_MONITOR_COMMAND_SIZE` are configuration
  constants whose definitions live outside this repository's source; the
  spec quantifies over them ("for all sector sizes Z"), so they are
  parameters `Z` and `P` here.  C++ loops whose termination depends on
  them are given explicit fuel, always called with enough fuel for the
  source behaviour.
-/

namespace DS5

/-- Hardware-monitor / AL3D commands issued by the engine, with the fields
the source stores into them.  PFD (practice of update_flash's preamble),
HWRST (hardware reset), FES (flash erase sector: param1 = sector index,
param2 = number of sectors, always 1), FWB (flash write: param1 = absolute
byte index, param2 = packet size, data = image[index, index+size)),
FRB (flash read: param1 = offset, param2 = size), alSet/alGet (AL3D
set_cmd with its p1/p2 words and get_cmd), alData (one AL3D 512-byte data
block, payload recorded). -/
inductive Cmd where
  | PFD : Cmd
  | HWRST : Cmd
  | FES : Nat → Nat → Cmd
  | FWB : Nat → Nat → Cmd
  | FRB : Nat → Nat → Cmd
  | alSet : Nat → Nat → Cmd
  | alGet : Cmd
  | alData : List Nat → Cmd
deriving DecidableEq

/-- One observable event: a command sent to the device, or an invocation of
the progress sink.  The sink receives a C float; a finite fraction is kept
as the exact rational, while the two degenerate float divisions the AL3D
engine can produce are kept symbolically: progressNaN for 0.0f / 0.0f
(IEEE NaN) and progressInf for x / 0.0f with x > 0 (IEEE +infinity) —
neither is representable in ℚ. -/
inductive Ev where
  | cmd : Cmd → Ev
  | progress : ℚ → Ev
  | progressNaN : Ev
  | progressInf : Ev
deriving DecidableEq

/-- Errors propagated out of the engine (C++ exceptions). -/
inductive Err where
  | transport : Err
  | invalidMode : Err
  | deviceFault : Err
deriving DecidableEq

/-- Fractions passed to the progress sink, in order. -/
def progressValues (t : List Ev) : List ℚ :=
  t.filterMap fun e => match e with
    | Ev.progress q => some q
    | _ => none

/-- Sector indices of the erase (FES) commands, in order. -/
def eraseSectors (t : List Ev) : List Nat :=
  t.filterMap fun e => match e with
    | Ev.cmd (Cmd.FES s _) => some s
    | _ => none

/-- Offset/size pairs of the flash read (FRB) commands, in order. -/
def readCmds (t : List Ev) : List (Nat × Nat) :=
  t.filterMap fun e => match e with
    | Ev.cmd (Cmd.FRB o s) => some (o, s)
    | _ => none

/-- Payloads of the AL3D data-block commands, in order. -/
def dataBlocks (t : List Ev) : List (List Nat) :=
  t.filterMap fun e => match e with
    | Ev.cmd (Cmd.alData b) => some b
    | _ => none

/-- All invocations of the progress sink, in order, kept as events so that
the degenerate float values (NaN, +infinity) stay distinguishable. -/
def progressCalls (t : List Ev) : List Ev :=
  t.filter fun e => match e with
    | Ev.cmd _ => false
    | _ => true

/-- The sink invocation produced by the float division a / b as computed
by the AL3D engine ((float)block_number / (float)blocks_count at
ds5-device.cpp:383 and (float)blocks_count / (float)blocks_count at
ds5-device.cpp:419): the exact quotient when b > 0, IEEE NaN for 0/0 and
IEEE +infinity for a/0 with a > 0. -/
def floatDivProgress (a b : Nat) : Ev :=
  if b = 0 then (if a = 0 then Ev.progressNaN else Ev.progressInf)
  else Ev.progress ((a : ℚ) / (b : ℚ))

/-- Checker for the erase-before-write discipline: scanning the trace with
the list of sectors erased so far, every flash write command must target a
sector (index / Z) that has already been erased. -/
def eraseBeforeWriteOK (Z : Nat) : List Nat → List Ev → Bool
  | _, [] => true
  | es, Ev.cmd (Cmd.FES s _) :: t => eraseBeforeWriteOK Z (s :: es) t
  | es, Ev.cmd (Cmd.FWB index _) :: t =>
      decide (index / Z ∈ es) && eraseBeforeWriteOK Z es t
  | es, _ :: t => eraseBeforeWriteOK Z es t

/-- Inner packet loop of update_flash_section (ds5-device.cpp:250-263):
for (int i = 0; i < Z; ) { index := sector*Z + i; if (index >= offset+size)
break; packet := min(P - i % P, Z - i); send FWB(index, packet); i += packet; }.
`fuel` bounds the iteration count; called with fuel = Z, which suffices
whenever P > 0 (each step advances i by at least one). -/
def writePackets (Z P sector offset size : Nat) : Nat → Nat → List Ev
  | 0, _ => []
  | fuel + 1, i =>
    if i < Z then
      let index := sector * Z + i
      if offset + size ≤ index then []
      else
        let packet := min (P - i % P) (Z - i)
        Ev.cmd (Cmd.FWB index packet) :: writePackets Z P sector offset size fuel (i + packet)
    else []

/-- Body of one iteration of the sector loop of update_flash_section
(ds5-device.cpp:242-267): erase the sector (FES, param2 = 1), write its
packets, then, if a callback is installed, report
continue_from + sector_index / sector_count * ratio. -/
def sectorBlock (Z P offset size : Nat) (hasCb : Bool) (continue_from ratio : ℚ)
    (sector_count s : Nat) : List Ev :=
  Ev.cmd (Cmd.FES s 1) ::
    (writePackets Z P s offset size Z 0 ++
      if hasCb then
        [Ev.progress (continue_from + (s : ℚ) / (sector_count : ℚ) * ratio)]
      else [])

/-- update_flash_section (ds5-device.cpp:232-268).  sector_count :=
size / Z, incremented when Z does not divide size, then incremented by
first_sector := offset / Z; the loop runs sector_index from first_sector
up to (exclusive) sector_count, so it touches c1 := ceil(size / Z)
consecutive sectors starting at first_sector. -/
def update_flash_section (Z P offset size : Nat) (hasCb : Bool)
    (continue_from ratio : ℚ) : List Ev :=
  let c0 := size / Z
  let first_sector := offset / Z
  let c1 := if c0 * Z ≠ size then c0 + 1 else c0
  let sector_count := c1 + first_sector
  (List.range' first_sector c1).flatMap
    (sectorBlock Z P offset size hasCb continue_from ratio sector_count)

/-- Sector set asserted by the claim (C1 wording): floor(offset/Z) up to
ceil((offset+size)/Z) - 1 inclusive. -/
def claimedEraseSectors (Z offset size : Nat) : List Nat :=
  List.range' (offset / Z) ((offset + size + Z - 1) / Z - offset / Z)

/-- Number of loop iterations of update_flash_section: sector_count before
the source adds first_sector to it (size / Z, plus one when Z does not
divide size). -/
def sectorSpan (Z size : Nat) : Nat :=
  if (size / Z) * Z ≠ size then size / Z + 1 else size / Z

/-- The denominator used in update_flash_section's progress reports: the
source's final sector_count, i.e. the span plus first_sector. -/
def sectorTotal (Z offset size : Nat) : Nat :=
  sectorSpan Z size + offset / Z

/-- Retry loop for one backup chunk (ds5-device.cpp:203-222): up to
`retries` = 3 attempts (j-loop) while not appended; every attempt issues
FRB(offset, size); on a failed attempt the source tests i < retries - 1 —
i being the CHUNK index, not the attempt index — and either sleeps 100 ms
and retries, or rethrows.  `fails i j` says whether attempt j of chunk i
fails.  Returns (events, appended, propagated error); fuel is the number
of attempts remaining (retries - j). -/
def backupRetryLoop (fails : Nat → Nat → Bool) (i offset size : Nat) :
    Nat → Nat → List Ev × Bool × Option Err
  | 0, _ => ([], false, none)
  | fuel + 1, j =>
    if fails i j then
      if i < 3 - 1 then
        let r := backupRetryLoop fails i offset size fuel (j + 1)
        (Ev.cmd (Cmd.FRB offset size) :: r.1, r.2)
      else ([Ev.cmd (Cmd.FRB offset size)], false, some Err.transport)
    else ([Ev.cmd (Cmd.FRB offset size)], true, none)

/-- Chunk loop of backup_flash (ds5-device.cpp:192-226): chunk i reads at
offset = max_bulk_size * i, size clamped to the remainder on the last
chunk; after the retry loop (if nothing was thrown) the callback is
invoked with (float)i / max_iterations; after the loop, with 1.0.
fuel = number of chunks remaining. -/
def backupLoop (fails : Nat → Nat → Bool) (flash_size max_bulk_size max_iterations : Nat)
    (hasCb : Bool) : Nat → Nat → List Ev × Option Err
  | 0, _ => ((if hasCb then [Ev.progress 1] else []), none)
  | fuel + 1, i =>
    let offset := max_bulk_size * i
    let size := if i = max_iterations - 1 then flash_size - offset else max_bulk_size
    match backupRetryLoop fails i offset size 3 0 with
    | (evs, _, some e) => (evs, some e)
    | (evs, _, none) =>
      let prog := if hasCb then [Ev.progress ((i : ℚ) / (max_iterations : ℚ))] else []
      let rest := backupLoop fails flash_size max_bulk_size max_iterations hasCb fuel (i + 1)
      (evs ++ prog ++ rest.1, rest.2)

/-- backup_flash (ds5-device.cpp:179-230): flash_size = 1024 * 2048,
max_bulk_size = 1016, max_iterations = flash_size / max_bulk_size + 1
(= 2065). -/
def backup_flash (fails : Nat → Nat → Bool) (hasCb : Bool) : List Ev × Option Err :=
  let flash_size := 1024 * 2048
  let max_bulk_size := 1016
  let max_iterations := flash_size / max_bulk_size + 1
  backupLoop fails flash_size max_bulk_size max_iterations hasCb max_iterations 0

/-- Events emitted for one failure-free backup chunk k: the read command
at offset max_bulk_size * k (size clamped on the last chunk) followed by
the progress report (float)k / max_iterations. -/
def backupChunkEvs (max_bulk_size max_iterations flash_size : Nat) (hasCb : Bool)
    (k : Nat) : List Ev :=
  Ev.cmd (Cmd.FRB (max_bulk_size * k)
      (if k = max_iterations - 1 then flash_size - max_bulk_size * k
       else max_bulk_size)) ::
    (if hasCb then [Ev.progress ((k : ℚ) / (max_iterations : ℚ))] else [])

/-- Modelled from the spec: flash table descriptor ({offset, size,
identifier}) of fw-update-unsigned.h, which is not part of this
repository's source tree. -/
structure flash_table where
  offset : Nat
  size : Nat
deriving DecidableEq, Inhabited

/-- Modelled from the spec: flash section ({offset of the application blob,
app_size, ordered tables}) of fw-update-unsigned.h. -/
structure flash_section where
  offset : Nat
  app_size : Nat
  tables : List flash_table
deriving DecidableEq, Inhabited

/-- Modelled from the spec: the header fields of the parsed flash image
used by update_flash_internal. -/
structure flash_header where
  read_write_start_address : Nat
  read_write_size : Nat
  read_only_start_address : Nat
  read_only_size : Nat
deriving DecidableEq, Inhabited

/-- Modelled from the spec: result of ds::get_flash_info (parser outside
this repository's source): header plus the two sections. -/
structure flash_info where
  header : flash_header
  read_write_section : flash_section
  read_only_section : flash_section
deriving DecidableEq, Inhabited

/-- Modelled from the spec: the librealsense unsigned-update mode values;
the claims depend only on the four values being distinct. -/
def RS2_UNSIGNED_UPDATE_MODE_FULL : Nat := 0

/-- Modelled from the spec: see RS2_UNSIGNED_UPDATE_MODE_FULL. -/
def RS2_UNSIGNED_UPDATE_MODE_UPDATE : Nat := 1

/-- Modelled from the spec: see RS2_UNSIGNED_UPDATE_MODE_FULL. -/
def RS2_UNSIGNED_UPDATE_MODE_READ_ONLY : Nat := 2

/-- Modelled from the spec: the AL3D full-update mode value, distinct from
the three legacy values. -/
def AL3D_UNSIGNED_UPDATE_MODE_FULL : Nat := 3

/-- Modelled from the spec: ds::FLASH_SIZE, the fixed total flash size;
consistent with the hard-coded flash_size = 1024 * 2048 of backup_flash. -/
def FLASH_SIZE : Nat := 1024 * 2048

/-- update_section (ds5-device.cpp:270-281): splits the section's progress
span `ratio` into app and tables parts weighted by byte size, then runs
update_flash_section over the application blob from `continue_from` and
over the tables region from `app_ratio` (exactly as in the source: the
second call's base is app_ratio, not continue_from + app_ratio). -/
def update_section (Z P : Nat) (fs : flash_section) (tables_size : Nat)
    (hasCb : Bool) (continue_from ratio : ℚ) : List Ev :=
  let first_table_offset := fs.tables.headI.offset
  let total_size : ℚ := ((fs.app_size + tables_size : Nat) : ℚ)
  let app_ratio := (fs.app_size : ℚ) / total_size * ratio
  let tables_ratio := (tables_size : ℚ) / total_size * ratio
  update_flash_section Z P fs.offset fs.app_size hasCb continue_from app_ratio ++
    update_flash_section Z P first_table_offset tables_size hasCb app_ratio tables_ratio

/-- update_flash_internal (ds5-device.cpp:283-301).  The parsed image info
(ds::get_flash_info) is taken as a parameter because the parser is outside
this repository's source; the merged image only affects write payload
bytes, which the events do not duplicate.  Updates the read-write section
over ratio 0.5 (READ_ONLY mode) or 1.0, then in READ_ONLY mode updates the
read-only section over the second half. -/
def update_flash_internal (Z P : Nat) (flash_image_info : flash_info)
    (hasCb : Bool) (update_mode : Nat) : List Ev :=
  let fto := flash_image_info.read_write_section.tables.headI.offset
  let tables_size := flash_image_info.header.read_write_start_address +
    flash_image_info.header.read_write_size - fto
  update_section Z P flash_image_info.read_write_section tables_size hasCb 0
      (if update_mode = RS2_UNSIGNED_UPDATE_MODE_READ_ONLY then 1/2 else 1) ++
    (if update_mode = RS2_UNSIGNED_UPDATE_MODE_READ_ONLY then
      let fto2 := flash_image_info.read_only_section.tables.headI.offset
      let tables_size2 := flash_image_info.header.read_only_start_address +
        flash_image_info.header.read_only_size - fto2
      update_section Z P flash_image_info.read_only_section tables_size2 hasCb (1/2) (1/2)
    else [])

/-- Result record of the AL3D update protocol: the first four sub-fields
(bytes result.p1[0..3]) tested by the source; layout modelled from the
spec (the al3d_fw_update_result struct definition is outside this
repository's source). -/
structure AlResult where
  b0 : Nat
  b1 : Nat
  b2 : Nat
  b3 : Nat
deriving DecidableEq, Inhabited

/-- Completion condition tested by the poll loop: the first four
sub-fields of the result record are all zero (ds5-device.cpp:409). -/
def alZero (r : AlResult) : Prop :=
  r.b0 = 0 ∧ r.b1 = 0 ∧ r.b2 = 0 ∧ r.b3 = 0

/-- Fault condition tested by the poll loop: first byte 0x80 (unsupported
command) or 0x82 (burn-image error) (ds5-device.cpp:413). -/
def alFault (r : AlResult) : Prop :=
  r.b0 = 0x80 ∨ r.b0 = 0x82

instance (r : AlResult) : Decidable (alZero r) :=
  inferInstanceAs (Decidable (r.b0 = 0 ∧ r.b1 = 0 ∧ r.b2 = 0 ∧ r.b3 = 0))

instance (r : AlResult) : Decidable (alFault r) :=
  inferInstanceAs (Decidable (r.b0 = 0x80 ∨ r.b0 = 0x82))

/-- Completion poll loop of al3d_fw_update_start (ds5-device.cpp:401-418):
each iteration sleeps 1 s, reads the result record (alGet), breaks when the
first four sub-fields are all zero, throws when the first byte is 0x80
(unsupported command) or 0x82 (burn-image error).  Exhausting the fuel
(600 iterations at the call site) falls through without an error.
`records i` is the record observed at iteration i. -/
def al3dPollLoop (records : Nat → AlResult) : Nat → Nat → List Ev × Option Err
  | 0, _ => ([], none)
  | fuel + 1, i =>
    let r := records i
    if r.b0 = 0 ∧ r.b1 = 0 ∧ r.b2 = 0 ∧ r.b3 = 0 then
      ([Ev.cmd Cmd.alGet], none)
    else if r.b0 = 0x80 ∨ r.b0 = 0x82 then
      ([Ev.cmd Cmd.alGet], some Err.deviceFault)
    else
      let rest := al3dPollLoop records fuel (i + 1)
      (Ev.cmd Cmd.alGet :: rest.1, rest.2)

/-- Poll ceiling of al3d_fw_update_start: max_loop = 60 * 10. -/
def max_loop : Nat := 60 * 10

/-- Block-transfer loop of al3d_fw_update_start (ds5-device.cpp:352-388):
while remaining > 0, send min(512, remaining) bytes; a final partial block
is zero-filled to 512 bytes, sent, and the loop breaks (before the block
counter increment and the progress callback); a full block is followed by
block_number++ (uint16) and progress block_number / blocks_count.  fuel
bounds the iterations; remaining/512 + 1 suffices. -/
def al3dBlockLoop (image : List Nat) (blocks_count : Nat) (hasCb : Bool) :
    Nat → Nat → Nat → Nat → List Ev
  | 0, _, _, _ => []
  | fuel + 1, remaining, offset, block_number =>
    if remaining = 0 then []
    else if remaining < 512 then
      [Ev.cmd (Cmd.alData ((image.drop offset).take remaining ++
        List.replicate (512 - remaining) 0))]
    else
      Ev.cmd (Cmd.alData ((image.drop offset).take 512)) ::
        (let bn := (block_number + 1) % 65536
        (if hasCb then [floatDivProgress bn blocks_count] else []) ++
          al3dBlockLoop image blocks_count hasCb fuel (remaining - 512) (offset + 512) bn)

/-- al3d_fw_update_start (ds5-device.cpp:304-431).  For mode
AL3D_UNSIGNED_UPDATE_MODE_FULL: init set_cmd with p1 = 0x00030001 and
p2 = fw_size rounded up to a multiple of 512; a drain get_cmd; the block
loop (blocks_count = uint16(fw_size / 512)); start set_cmd with
p1 = 0x00030101; the completion poll (up to max_loop records); then
progress (float)blocks_count / (float)blocks_count (NaN when blocks_count
is 0, i.e. fw_size < 512) followed by the final 1.0.  Any other mode
throws invalid-mode before any traffic. -/
def al3d_fw_update_start (image : List Nat) (records : Nat → AlResult)
    (hasCb : Bool) (update_mode : Nat) : List Ev × Option Err :=
  if update_mode = AL3D_UNSIGNED_UPDATE_MODE_FULL then
    let fw_size := image.length
    let p2 := (fw_size / 512) * 512 + (if fw_size % 512 > 0 then 512 else 0)
    let blocks_count := (fw_size / 512) % 65536
    let init : List Ev := [Ev.cmd (Cmd.alSet 0x00030001 p2), Ev.cmd Cmd.alGet]
    let blocks := al3dBlockLoop image blocks_count hasCb (fw_size / 512 + 1) fw_size 0 0
    let start : List Ev := [Ev.cmd (Cmd.alSet 0x00030101 p2)]
    let poll := al3dPollLoop records max_loop 0
    match poll with
    | (pollEvs, some e) => (init ++ blocks ++ start ++ pollEvs, some e)
    | (pollEvs, none) =>
      (init ++ blocks ++ start ++ pollEvs ++
        (if hasCb then
          [floatDivProgress blocks_count blocks_count, Ev.progress 1]
        else []), none)
  else ([], some Err.invalidMode)

/-- Body of update_flash's mode switch (ds5-device.cpp:446-466): FULL:
whole-flash update_flash_section; UPDATE / READ_ONLY: backup_flash with a
null callback then update_flash_internal; AL3D: al3d_fw_update_start;
anything else: throw invalid-mode. -/
def update_flash_body (Z P : Nat) (flash_image_info : flash_info)
    (records : Nat → AlResult) (bfails : Nat → Nat → Bool) (image : List Nat)
    (hasCb : Bool) (update_mode : Nat) : List Ev × Option Err :=
  if update_mode = RS2_UNSIGNED_UPDATE_MODE_FULL then
    (update_flash_section Z P 0 FLASH_SIZE hasCb 0 1, none)
  else if update_mode = RS2_UNSIGNED_UPDATE_MODE_UPDATE ∨
      update_mode = RS2_UNSIGNED_UPDATE_MODE_READ_ONLY then
    let bk := backup_flash bfails false
    match bk with
    | (bevs, some e) => (bevs, some e)
    | (bevs, none) =>
      (bevs ++ update_flash_internal Z P flash_image_info hasCb update_mode, none)
  else if update_mode = AL3D_UNSIGNED_UPDATE_MODE_FULL then
    al3d_fw_update_start image records hasCb update_mode
  else ([], some Err.invalidMode)

/-- update_flash (ds5-device.cpp:433-473): inside invoke_powered, send PFD,
run the mode switch (update_flash_body), then on success report 1.0 and
send HWRST.  A C++ throw anywhere skips the rest, so an error result
carries only the trace emitted so far. -/
def update_flash (Z P : Nat) (flash_image_info : flash_info)
    (records : Nat → AlResult) (bfails : Nat → Nat → Bool) (image : List Nat)
    (hasCb : Bool) (update_mode : Nat) : List Ev × Option Err :=
  let pfd : List Ev := [Ev.cmd Cmd.PFD]
  match update_flash_body Z P flash_image_info records bfails image hasCb update_mode with
  | (evs, some e) => (pfd ++ evs, some e)
  | (evs, none) =>
    (pfd ++ evs ++ (if hasCb then [Ev.progress 1] else []) ++ [Ev.cmd Cmd.HWRST], none)

/-- Outcome of one is_valid() poll in enter_update_state: the device is
still present, it is gone, or the poll raised an exception. -/
inductive PollRes where
  | present : PollRes
  | absent : PollRes
  | raises : PollRes
deriving DecidableEq

/-- How enter_update_state finished. -/
inductive ExitKind where
  | disconnected : ExitKind
  | timedOut : ExitKind
deriving DecidableEq

/-- Observable result of enter_update_state: the number of is_valid()
polls performed and how it finished, or a caught-and-logged error. -/
inductive EnterResult where
  | completed : Nat → ExitKind → EnterResult
  | errorLogged : Err → EnterResult
deriving DecidableEq

/-- Disconnect-wait loop of enter_update_state (ds5-device.cpp:155-163):
each iteration calls is_valid(); when it reports the device gone the
function returns at once; a raised exception propagates (to the enclosing
catch); otherwise sleep and poll again.  `polls` counts is_valid() calls
made so far; fuel is the remaining iteration budget. -/
def dfuWaitLoop (poll : Nat → PollRes) : Nat → Nat → Except Err (Nat × ExitKind)
  | 0, polls => Except.ok (polls, ExitKind.timedOut)
  | fuel + 1, polls =>
    match poll polls with
    | PollRes.absent => Except.ok (polls + 1, ExitKind.disconnected)
    | PollRes.raises => Except.error Err.transport
    | PollRes.present => dfuWaitLoop poll fuel (polls + 1)

/-- Body of the try block of enter_update_state (ds5-device.cpp:146-168):
send the DFU command (param1 = 1; may throw), then run the bounded
disconnect-wait loop.  maxIter is
(POLLING_DEVICES_INTERVAL_MS + 1000) / DELAY_FOR_RETRIES, whose constants
are configuration outside this source file. -/
def enterUpdateTryBody (maxIter : Nat) (sendFails : Bool)
    (poll : Nat → PollRes) : Except Err (Nat × ExitKind) :=
  if sendFails then Except.error Err.transport
  else dfuWaitLoop poll maxIter 0

/-- enter_update_state (ds5-device.cpp:139-177): the whole try body is
wrapped in catch(std::exception)/catch(...) handlers that only log, so
the function always returns normally. -/
def enter_update_state (maxIter : Nat) (sendFails : Bool)
    (poll : Nat → PollRes) : Except Err EnterResult :=
  match enterUpdateTryBody maxIter sendFails poll with
  | Except.ok (p, x) => Except.ok (EnterResult.completed p x)
  | Except.error e => Except.ok (EnterResult.errorLogged e)

/-- check_fw_compatibility (ds5-device.cpp:475-489): the version-extraction
and minimum-version comparison are compiled out (#if 0 ... #else return 1),
so the function returns true for every image. -/
def check_fw_compatibility (image : List Nat) : Bool :=
  let _ := image
  true

/-- Concrete flash layout used by the READ_ONLY progress counterexample:
sector size 8; read-write section = app at [0,8) plus one table at [8,16);
read-only section = app at [16,24) plus one table at [24,32). -/
def sampleInfo : flash_info :=
  { header :=
      { read_write_start_address := 0
        read_write_size := 16
        read_only_start_address := 16
        read_only_size := 16 }
    read_write_section :=
      { offset := 0
        app_size := 8
        tables := [{ offset := 8, size := 8 }] }
    read_only_section :=
      { offset := 16
        app_size := 8
        tables := [{ offset := 24, size := 8 }] } }

/-- Failure oracle: every attempt of chunk 2 fails, everything else
succeeds. -/
def failChunk2 : Nat → Nat → Bool := fun i _ => i == 2

/-- Failure oracle: every attempt of chunk 0 fails, everything else
succeeds. -/
def failChunk0 : Nat → Nat → Bool := fun i _ => i == 0

/-- Failure oracle with no failures. -/
def noFail : Nat → Nat → Bool := fun _ _ => false

/-- Record stream whose first record already signals completion. -/
def zeroRecords : Nat → AlResult := fun _ => { b0 := 0, b1 := 0, b2 := 0, b3 := 0 }

/-- Record stream that is busy (nonzero, non-fault) for the first two
polls and signals completion from the third on. -/
def sampleRecords : Nat → AlResult := fun i =>
  if i < 2 then { b0 := 1, b1 := 0, b2 := 0, b3 := 0 }
  else { b0 := 0, b1 := 0, b2 := 0, b3 := 0 }

/-- A 513-byte firmware image (one full 512-byte block plus one byte). -/
def sampleImage : List Nat := List.replicate 513 7

/-- A 100-byte firmware image (shorter than one 512-byte block). -/
def smallImage : List Nat := List.replicate 100 3

/-- Presence oracle: the device is still present for the first two polls
and gone from the third on. -/
def samplePoll : Nat → PollRes := fun n =>
  if n < 2 then PollRes.present else PollRes.absent

/-! Helper lemmas about the trace projections. -/

theorem progressValues_append (t₁ t₂ : List Ev) :
    progressValues (t₁ ++ t₂) = progressValues t₁ ++ progressValues t₂ := by
  simp [progressValues]

theorem progressValues_nil : progressValues [] = [] := rfl

theorem progressValues_cmd_cons (c : Cmd) (t : List Ev) :
    progressValues (Ev.cmd c :: t) = progressValues t := rfl

theorem progressValues_progress_cons (q : ℚ) (t : List Ev) :
    progressValues (Ev.progress q :: t) = q :: progressValues t := rfl

theorem eraseSectors_append (t₁ t₂ : List Ev) :
    eraseSectors (t₁ ++ t₂) = eraseSectors t₁ ++ eraseSectors t₂ := by
  simp [eraseSectors]

theorem readCmds_append (t₁ t₂ : List Ev) :
    readCmds (t₁ ++ t₂) = readCmds t₁ ++ readCmds t₂ := by
  simp [readCmds]

theorem dataBlocks_append (t₁ t₂ : List Ev) :
    dataBlocks (t₁ ++ t₂) = dataBlocks t₁ ++ dataBlocks t₂ := by
  simp [dataBlocks]

/-! Structure of update_flash_section traces (claim C1). -/

theorem eraseSectors_writePackets (Z P s offset size : Nat) :
    ∀ fuel i, eraseSectors (writePackets Z P s offset size fuel i) = [] := by
  intro fuel
  induction fuel with
  | zero => intro i; simp [writePackets, eraseSectors]
  | succ n ih =>
    intro i
    simp only [writePackets]
    split
    · split
      · simp [eraseSectors]
      · simp only [eraseSectors, List.filterMap_cons]
        exact ih _
    · simp [eraseSectors]

theorem progressValues_writePackets (Z P s offset size : Nat) :
    ∀ fuel i, progressValues (writePackets Z P s offset size fuel i) = [] := by
  intro fuel
  induction fuel with
  | zero => intro i; simp [writePackets, progressValues]
  | succ n ih =>
    intro i
    simp only [writePackets]
    split
    · split
      · simp [progressValues]
      · simp only [progressValues, List.filterMap_cons]
        exact ih _
    · simp [progressValues]

theorem eraseSectors_sectorBlock (Z P offset size : Nat) (hasCb : Bool)
    (cf r : ℚ) (sc s : Nat) :
    eraseSectors (sectorBlock Z P offset size hasCb cf r sc s) = [s] := by
  simp only [sectorBlock, eraseSectors, List.filterMap_cons, List.filterMap_append]
  rw [show (List.filterMap _ (writePackets Z P s offset size Z 0)) =
    eraseSectors (writePackets Z P s offset size Z 0) from rfl,
    eraseSectors_writePackets]
  cases hasCb <;> simp

theorem eraseSectors_flatMap_sectorBlock (Z P offset size : Nat) (hasCb : Bool)
    (cf r : ℚ) (sc : Nat) :
    ∀ L : List Nat,
      eraseSectors (L.flatMap (sectorBlock Z P offset size hasCb cf r sc)) = L := by
  intro L
  induction L with
  | nil => simp [eraseSectors]
  | cons s L ih =>
    simp only [List.flatMap_cons, eraseSectors_append, ih,
      eraseSectors_sectorBlock, List.singleton_append]

theorem eraseSectors_update_flash_section (Z P offset size : Nat) (hasCb : Bool)
    (cf r : ℚ) :
    eraseSectors (update_flash_section Z P offset size hasCb cf r) =
      List.range' (offset / Z)
        (if (size / Z) * Z ≠ size then size / Z + 1 else size / Z) := by
  simp only [update_flash_section, eraseSectors_flatMap_sectorBlock]

theorem eraseBeforeWriteOK_progress_cons (Z : Nat) (es : List Nat) (q : ℚ)
    (t : List Ev) :
    eraseBeforeWriteOK Z es (Ev.progress q :: t) = eraseBeforeWriteOK Z es t := rfl

theorem eraseBeforeWriteOK_writePackets (Z P s offset size : Nat) (hZ : 0 < Z)
    (es : List Nat) (hmem : s ∈ es) :
    ∀ fuel i rest,
      eraseBeforeWriteOK Z es (writePackets Z P s offset size fuel i ++ rest) =
        eraseBeforeWriteOK Z es rest := by
  intro fuel
  induction fuel with
  | zero => intro i rest; simp [writePackets]
  | succ n ih =>
    intro i rest
    simp only [writePackets]
    split
    · rename_i hiZ
      split
      · simp
      · have hdiv : (s * Z + i) / Z = s := by
          rw [Nat.mul_comm s Z, Nat.mul_add_div hZ, Nat.div_eq_of_lt hiZ,
            Nat.add_zero]
        simp only [List.cons_append, eraseBeforeWriteOK, hdiv,
          decide_eq_true hmem, Bool.true_and]
        exact ih _ _
    · simp

theorem eraseBeforeWriteOK_flatMap_sectorBlock (Z P offset size : Nat) (hZ : 0 < Z)
    (hasCb : Bool) (cf r : ℚ) (sc : Nat) :
    ∀ (L : List Nat) (es : List Nat),
      eraseBeforeWriteOK Z es (L.flatMap (sectorBlock Z P offset size hasCb cf r sc)) =
        true := by
  intro L
  induction L with
  | nil => intro es; simp [eraseBeforeWriteOK]
  | cons s L ih =>
    intro es
    simp only [List.flatMap_cons, sectorBlock, List.cons_append, List.append_assoc]
    show eraseBeforeWriteOK Z (s :: es) _ = true
    rw [eraseBeforeWriteOK_writePackets Z P s offset size hZ (s :: es)
      (List.mem_cons_self s es)]
    cases hasCb
    · simpa using ih (s :: es)
    · simpa [eraseBeforeWriteOK] using ih (s :: es)

theorem eraseBeforeWriteOK_update_flash_section (Z P offset size : Nat)
    (hZ : 0 < Z) (hasCb : Bool) (cf r : ℚ) :
    eraseBeforeWriteOK Z [] (update_flash_section Z P offset size hasCb cf r) =
      true := by
  simp only [update_flash_section]
  exact eraseBeforeWriteOK_flatMap_sectorBlock Z P offset size hZ hasCb cf r _ _ _

/-- Claim C1, counterexample to the claimed sector set.  At sector size
Z = 8 with the misaligned range [4, 12), update_flash_section erases only
sector 0 (sectors offset/Z up to offset/Z + ceil(size/Z) - 1), while the
claim asserts the erased set is {floor(offset/Z), ..., ceil((offset+size)/Z) - 1}
= {0, 1}: the sets differ whenever the offset is not sector-aligned. -/
theorem erase_sectors_claim_false :
    eraseSectors (update_flash_section 8 8 4 8 false 0 1) = [0] ∧
    claimedEraseSectors 8 4 8 = [0, 1] ∧
    eraseSectors (update_flash_section 8 8 4 8 false 0 1) ≠
      claimedEraseSectors 8 4 8 := by
  refine ⟨by decide, by decide, by decide⟩

/-- Claim C1, amended: for every sector size Z > 0, packet bound P and
range [offset, offset+size), update_flash_section erases exactly the
ceil(size/Z) consecutive sectors starting at floor(offset/Z) (the set the
claim names when offset is sector-aligned), each exactly once and in
ascending order, and every flash write command in the trace targets a
sector that was erased earlier in the trace. -/
theorem erase_sectors_amended (Z P offset size : Nat) (hZ : 0 < Z)
    (hasCb : Bool) (cf r : ℚ) :
    eraseSectors (update_flash_section Z P offset size hasCb cf r) =
      List.range' (offset / Z)
        (if (size / Z) * Z ≠ size then size / Z + 1 else size / Z) ∧
    (eraseSectors (update_flash_section Z P offset size hasCb cf r)).Nodup ∧
    eraseBeforeWriteOK Z [] (update_flash_section Z P offset size hasCb cf r) =
      true := by
  refine ⟨eraseSectors_update_flash_section Z P offset size hasCb cf r, ?_,
    eraseBeforeWriteOK_update_flash_section Z P offset size hZ hasCb cf r⟩
  rw [eraseSectors_update_flash_section Z P offset size hasCb cf r]
  exact List.nodup_range' _ _

/-- Witness for erase_sectors_amended at Z = 8, P = 8, range [4, 12). -/
theorem erase_sectors_amended_witness :
    eraseSectors (update_flash_section 8 8 4 8 false 0 1) =
      List.range' (4 / 8)
        (if (8 / 8) * 8 ≠ 8 then 8 / 8 + 1 else 8 / 8) ∧
    (eraseSectors (update_flash_section 8 8 4 8 false 0 1)).Nodup ∧
    eraseBeforeWriteOK 8 [] (update_flash_section 8 8 4 8 false 0 1) = true :=
  erase_sectors_amended 8 8 4 8 (by decide) false 0 1

/-! Structure of backup_flash traces (claims C2 and C3). -/

theorem backupRetryLoop_ok (fails : Nat → Nat → Bool) (i offset size fuel j : Nat)
    (h : fails i j = false) :
    backupRetryLoop fails i offset size (fuel + 1) j =
      ([Ev.cmd (Cmd.FRB offset size)], true, none) := by
  simp [backupRetryLoop, h]

theorem backupLoop_char (fails : Nat → Nat → Bool)
    (flash_size max_bulk_size max_iterations : Nat) (hasCb : Bool) :
    ∀ fuel i, (∀ k j, i ≤ k → fails k j = false) →
      backupLoop fails flash_size max_bulk_size max_iterations hasCb fuel i =
        ((List.range' i fuel).flatMap
            (backupChunkEvs max_bulk_size max_iterations flash_size hasCb) ++
          (if hasCb then [Ev.progress 1] else []), none) := by
  intro fuel
  induction fuel with
  | zero => intro i h; simp [backupLoop]
  | succ n ih =>
    intro i h
    have hstep := backupRetryLoop_ok fails i (max_bulk_size * i)
      (if i = max_iterations - 1 then flash_size - max_bulk_size * i
       else max_bulk_size) 2 0 (h i 0 (Nat.le_refl i))
    have hrest := ih (i + 1) (fun k j hk => h k j (Nat.le_of_succ_le hk))
    simp only [backupLoop, hstep, hrest, List.range'_succ, List.flatMap_cons,
      backupChunkEvs, List.cons_append, List.append_assoc, List.singleton_append,
      List.nil_append]

theorem readCmds_flatMap_backupChunkEvs (max_bulk_size max_iterations flash_size : Nat)
    (hasCb : Bool) :
    ∀ L : List Nat,
      readCmds (L.flatMap (backupChunkEvs max_bulk_size max_iterations flash_size hasCb)) =
        L.map (fun k => (max_bulk_size * k,
          if k = max_iterations - 1 then flash_size - max_bulk_size * k
          else max_bulk_size)) := by
  intro L
  induction L with
  | nil => simp [readCmds]
  | cons k L ih =>
    simp only [List.flatMap_cons, readCmds_append, ih, backupChunkEvs, List.map_cons]
    cases hasCb <;> simp [readCmds]

theorem progressValues_flatMap_backupChunkEvs
    (max_bulk_size max_iterations flash_size : Nat) :
    ∀ L : List Nat,
      progressValues
          (L.flatMap (backupChunkEvs max_bulk_size max_iterations flash_size true)) =
        L.map (fun k : Nat => (k : ℚ) / (max_iterations : ℚ)) := by
  intro L
  induction L with
  | nil => simp [progressValues]
  | cons k L ih =>
    simp only [List.flatMap_cons, progressValues_append, ih, backupChunkEvs,
      List.map_cons]
    simp [progressValues]

theorem chain_le_map_range' (f : Nat → ℚ) (hf : ∀ a b, a ≤ b → f a ≤ f b) :
    ∀ n s, List.Chain' (· ≤ ·) ((List.range' s n).map f) := by
  intro n
  induction n with
  | zero => intro s; simp
  | succ m ih =>
    intro s
    rw [List.range'_succ]
    rcases m with _ | m'
    · simp
    · rw [List.range'_succ, List.map_cons, List.map_cons]
      exact List.Chain'.cons (hf s (s + 1) (Nat.le_succ s))
        (by simpa [List.range'_succ] using ih (s + 1))

theorem backup_flash_noFail_char :
    backup_flash noFail true =
      ((List.range' 0 2065).flatMap (backupChunkEvs 1016 2065 2097152 true) ++
        [Ev.progress 1], none) := by
  have h0 : backup_flash noFail true =
      backupLoop noFail 2097152 1016 2065 true 2065 0 := rfl
  rw [h0, backupLoop_char noFail 2097152 1016 2065 true 2065 0
    (fun _ _ _ => rfl)]
  simp

theorem backup_flash_noFail_readCmds :
    readCmds (backup_flash noFail true).1 =
      (List.range' 0 2065).map
        (fun k => (1016 * k, if k = 2064 then 2097152 - 1016 * k else 1016)) := by
  rw [backup_flash_noFail_char]
  simp only [readCmds_append,
    readCmds_flatMap_backupChunkEvs 1016 2065 2097152 true]
  norm_num [readCmds]

theorem backup_flash_noFail_progress :
    progressValues (backup_flash noFail true).1 =
      (List.range' 0 2065).map (fun k : Nat => (k : ℚ) / 2065) ++ [1] := by
  rw [backup_flash_noFail_char]
  simp only [progressValues_append,
    progressValues_flatMap_backupChunkEvs 1016 2065 2097152]
  simp [progressValues]

/-- Claim C2, counterexample to the progress fractions.  With no transport
failures, the very first invocation of the progress sink (after the first
chunk completed successfully) carries (float)0 / 2065 = 0, not
completed_chunks / total_chunks = 1 / 2065: the source reports the index
of the chunk just finished, i.e. (completed_chunks - 1) / total_chunks. -/
theorem backup_progress_claim_false :
    (progressValues (backup_flash noFail true).1).head? = some 0 ∧
    (0 : ℚ) ≠ 1 / 2065 := by
  constructor
  · rw [backup_flash_noFail_progress,
      show (2065 : Nat) = 2064 + 1 from rfl, List.range'_succ]
    norm_num
  · norm_num

/-- Claim C2, amended.  backup_flash partitions the flash size
S = 2097152 into chunks of C = 1016 and issues ceil(S/C) = 2065 read
commands at offsets 1016 * k, clamping the final chunk to the remaining
128 bytes; the read intervals are disjoint and exactly cover [0, S) (every
address lies in exactly one issued read command); after chunk k the sink
receives k / 2065 — one chunk less than the claimed
completed_chunks / total_chunks — and after the final chunk it
additionally receives exactly 1.0, the whole sequence being non-decreasing. -/
theorem backup_partition_amended :
    readCmds (backup_flash noFail true).1 =
      (List.range' 0 2065).map
        (fun k => (1016 * k, if k = 2064 then 2097152 - 1016 * k else 1016)) ∧
    (readCmds (backup_flash noFail true).1).length = (2097152 + 1016 - 1) / 1016 ∧
    (∀ addr, addr < 2097152 →
      ∃! p, p ∈ readCmds (backup_flash noFail true).1 ∧
        p.1 ≤ addr ∧ addr < p.1 + p.2) ∧
    progressValues (backup_flash noFail true).1 =
      (List.range' 0 2065).map (fun k : Nat => (k : ℚ) / 2065) ++ [1] ∧
    List.Chain' (· ≤ ·) (progressValues (backup_flash noFail true).1) ∧
    (progressValues (backup_flash noFail true).1).getLast? = some 1 ∧
    (backup_flash noFail true).2 = none := by
  refine ⟨backup_flash_noFail_readCmds, ?_, ?_, backup_flash_noFail_progress,
    ?_, ?_, ?_⟩
  · rw [backup_flash_noFail_readCmds]
    simp
  · intro addr haddr
    have hq : addr / 1016 < 2065 := by omega
    refine ⟨(1016 * (addr / 1016),
      if addr / 1016 = 2064 then 2097152 - 1016 * (addr / 1016) else 1016),
      ⟨?_, ?_, ?_⟩, ?_⟩
    · rw [backup_flash_noFail_readCmds]
      exact List.mem_map.2 ⟨addr / 1016, by simp [List.mem_range'_1, hq], rfl⟩
    · simpa using Nat.mul_div_le addr 1016
    · by_cases h64 : addr / 1016 = 2064 <;> simp only [h64, if_true, if_false,
        reduceIte] <;> omega
    · rintro p ⟨hmem, hlo, hhi⟩
      rw [backup_flash_noFail_readCmds] at hmem
      obtain ⟨k, hk, rfl⟩ := List.mem_map.1 hmem
      have hk' : k < 2065 := by
        simpa [List.mem_range'_1] using hk
      have hkeq : k = addr / 1016 := by
        by_cases h64 : k = 2064 <;> simp only [h64, if_true, if_false,
          reduceIte] at hhi <;> omega
      subst hkeq
      rfl
  · rw [backup_flash_noFail_progress]
    rw [List.chain'_append]
    refine ⟨chain_le_map_range' (fun k : Nat => (k : ℚ) / 2065)
      (fun a b hab => by
        apply div_le_div_of_nonneg_right ?_ (by norm_num)
        exact_mod_cast hab) 2065 0, List.chain'_singleton 1, ?_⟩
    intro x hx y hy
    simp only [List.head?_cons, Option.mem_def, Option.some.injEq] at hy
    subst hy
    rw [List.getLast?_map, show (2065 : Nat) = 2064 + 1 from rfl,
      List.getLast?_range'] at hx
    simp only [Option.mem_def, Option.map_eq_some'] at hx
    obtain ⟨a, ha, rfl⟩ := hx
    have ha2 : a = 2064 := by
      simp at ha
      omega
    subst ha2
    norm_num
  · rw [backup_flash_noFail_progress]
    exact List.getLast?_concat _
  · rw [backup_flash_noFail_char]

/-- Witness for the coverage part of backup_partition_amended at the last
flash address 2097151. -/
theorem backup_partition_amended_witness :
    ∃! p, p ∈ readCmds (backup_flash noFail true).1 ∧
      p.1 ≤ 2097151 ∧ 2097151 < p.1 + p.2 :=
  backup_partition_amended.2.2.1 2097151 (by norm_num)

/-- Claim C3: the retry guard is a code bug.  The catch handler tests
i < retries - 1 with i the CHUNK index instead of the attempt index j
(ds5-device.cpp:219), so (a) for chunk 2 a single transport failure
propagates immediately — only one FRB read is attempted for that chunk
instead of the specified 3 — and (b) for chunk 0 all three failed attempts
are swallowed and the backup completes without error, silently missing the
chunk, instead of failing. -/
theorem backup_retry_bug :
    (backup_flash failChunk2 true).2 = some Err.transport ∧
    readCmds (backup_flash failChunk2 true).1 =
      [(0, 1016), (1016, 1016), (2032, 1016)] ∧
    (backup_flash failChunk0 true).2 = none := by
  refine ⟨by decide, by decide, ?_⟩
  have h0 : backup_flash failChunk0 true =
      backupLoop failChunk0 2097152 1016 2065 true 2065 0 := rfl
  have h1 : ∀ k j, 1 ≤ k → failChunk0 k j = false := by
    intro k j hk
    simp only [failChunk0, beq_eq_false_iff_ne, ne_eq]
    omega
  have hrest := backupLoop_char failChunk0 2097152 1016 2065 true 2064 1 h1
  have hretry : backupRetryLoop failChunk0 0 (1016 * 0)
      (if (0 : Nat) = 2065 - 1 then 2097152 - 1016 * 0 else 1016) 3 0 =
      ([Ev.cmd (Cmd.FRB 0 1016), Ev.cmd (Cmd.FRB 0 1016),
        Ev.cmd (Cmd.FRB 0 1016)], false, none) := by decide
  rw [h0, show (2065 : Nat) = Nat.succ 2064 from rfl,
    backupLoop.eq_2, hretry]
  rw [hrest]


/-! Progress characterization of update_flash_section (claim C4). -/

theorem progressValues_sectorBlock (Z P offset size : Nat) (cf r : ℚ)
    (sc s : Nat) :
    progressValues (sectorBlock Z P offset size true cf r sc s) =
      [cf + (s : ℚ) / (sc : ℚ) * r] := by
  simp only [sectorBlock, progressValues, List.filterMap_cons,
    List.filterMap_append]
  rw [show (List.filterMap _ (writePackets Z P s offset size Z 0)) =
    progressValues (writePackets Z P s offset size Z 0) from rfl,
    progressValues_writePackets]
  simp

theorem progressValues_sectorBlock_false (Z P offset size : Nat) (cf r : ℚ)
    (sc s : Nat) :
    progressValues (sectorBlock Z P offset size false cf r sc s) = [] := by
  simp only [sectorBlock, progressValues, List.filterMap_cons,
    List.filterMap_append]
  rw [show (List.filterMap _ (writePackets Z P s offset size Z 0)) =
    progressValues (writePackets Z P s offset size Z 0) from rfl,
    progressValues_writePackets]
  simp

theorem progressValues_flatMap_sectorBlock (Z P offset size : Nat) (cf r : ℚ)
    (sc : Nat) :
    ∀ L : List Nat,
      progressValues (L.flatMap (sectorBlock Z P offset size true cf r sc)) =
        L.map (fun s : Nat => cf + (s : ℚ) / (sc : ℚ) * r) := by
  intro L
  induction L with
  | nil => simp [progressValues]
  | cons s L ih =>
    simp only [List.flatMap_cons, progressValues_append, ih,
      progressValues_sectorBlock, List.map_cons, List.singleton_append]

theorem progressValues_flatMap_sectorBlock_false (Z P offset size : Nat)
    (cf r : ℚ) (sc : Nat) :
    ∀ L : List Nat,
      progressValues (L.flatMap (sectorBlock Z P offset size false cf r sc)) =
        [] := by
  intro L
  induction L with
  | nil => simp [progressValues]
  | cons s L ih =>
    simp only [List.flatMap_cons, progressValues_append, ih,
      progressValues_sectorBlock_false, List.nil_append]

theorem progressValues_update_flash_section (Z P offset size : Nat) (cf r : ℚ) :
    progressValues (update_flash_section Z P offset size true cf r) =
      (List.range' (offset / Z) (sectorSpan Z size)).map
        (fun s : Nat => cf + (s : ℚ) / ((sectorTotal Z offset size : Nat) : ℚ) * r) := by
  simp only [update_flash_section, sectorSpan, sectorTotal,
    progressValues_flatMap_sectorBlock]

theorem progressValues_update_flash_section_false (Z P offset size : Nat)
    (cf r : ℚ) :
    progressValues (update_flash_section Z P offset size false cf r) = [] := by
  simp only [update_flash_section, progressValues_flatMap_sectorBlock_false]

theorem progressValues_update_flash_section_chain (Z P offset size : Nat)
    (cf r : ℚ) (hr : 0 ≤ r) :
    List.Chain' (· ≤ ·)
      (progressValues (update_flash_section Z P offset size true cf r)) := by
  rw [progressValues_update_flash_section]
  apply chain_le_map_range'
  intro a b hab
  have h1 : (a : ℚ) / ((sectorTotal Z offset size : Nat) : ℚ) ≤
      (b : ℚ) / ((sectorTotal Z offset size : Nat) : ℚ) := by
    rw [div_eq_mul_inv, div_eq_mul_inv]
    apply mul_le_mul_of_nonneg_right (by exact_mod_cast hab)
    positivity
  have h2 := mul_le_mul_of_nonneg_right h1 hr
  linarith

theorem progressValues_update_flash_section_bounds (Z P offset size : Nat)
    (cf r : ℚ) (hr : 0 ≤ r) :
    ∀ x ∈ progressValues (update_flash_section Z P offset size true cf r),
      cf ≤ x ∧ x ≤ cf + r := by
  rw [progressValues_update_flash_section]
  intro x hx
  obtain ⟨s, hs, rfl⟩ := List.mem_map.1 hx
  have hsrange : offset / Z ≤ s ∧ s < offset / Z + sectorSpan Z size := by
    simpa [List.mem_range'_1] using hs
  have hslt : s < sectorTotal Z offset size := by
    simp only [sectorTotal]
    omega
  have htpos : (0 : ℚ) < ((sectorTotal Z offset size : Nat) : ℚ) := by
    exact_mod_cast Nat.pos_of_ne_zero (by omega)
  have hdiv0 : (0 : ℚ) ≤ (s : ℚ) / ((sectorTotal Z offset size : Nat) : ℚ) :=
    div_nonneg (by positivity) (le_of_lt htpos)
  have hdiv1 : (s : ℚ) / ((sectorTotal Z offset size : Nat) : ℚ) ≤ 1 := by
    rw [div_le_one htpos]
    exact_mod_cast le_of_lt hslt
  constructor
  · nlinarith
  · nlinarith


/-! Progress behaviour of update_section and of the update_flash modes
(claim C4). -/

theorem update_section_chain_zero (Z P : Nat) (fs : flash_section) (ts : Nat)
    (r : ℚ) (hr : 0 ≤ r) :
    List.Chain' (· ≤ ·) (progressValues (update_section Z P fs ts true 0 r)) ∧
    ∀ x ∈ progressValues (update_section Z P fs ts true 0 r),
      0 ≤ x ∧ x ≤ r := by
  have ha0 : (0 : ℚ) ≤ (fs.app_size : ℚ) / ((fs.app_size + ts : Nat) : ℚ) * r :=
    mul_nonneg (div_nonneg (Nat.cast_nonneg _) (Nat.cast_nonneg _)) hr
  have ht0 : (0 : ℚ) ≤ (ts : ℚ) / ((fs.app_size + ts : Nat) : ℚ) * r :=
    mul_nonneg (div_nonneg (Nat.cast_nonneg _) (Nat.cast_nonneg _)) hr
  have hsum : (fs.app_size : ℚ) / ((fs.app_size + ts : Nat) : ℚ) * r +
      (ts : ℚ) / ((fs.app_size + ts : Nat) : ℚ) * r ≤ r := by
    have heq : (fs.app_size : ℚ) / ((fs.app_size + ts : Nat) : ℚ) * r +
        (ts : ℚ) / ((fs.app_size + ts : Nat) : ℚ) * r =
        (((fs.app_size : ℚ) + (ts : ℚ)) / ((fs.app_size + ts : Nat) : ℚ)) * r := by
      ring
    rw [heq]
    have hT : ((fs.app_size + ts : Nat) : ℚ) = (fs.app_size : ℚ) + (ts : ℚ) := by
      push_cast
      ring
    rw [hT]
    rcases eq_or_ne ((fs.app_size : ℚ) + (ts : ℚ)) 0 with h0 | h0
    · rw [h0]
      simpa using hr
    · rw [div_self h0, one_mul]
  have hpv : progressValues (update_section Z P fs ts true 0 r) =
      progressValues (update_flash_section Z P fs.offset fs.app_size true 0
        ((fs.app_size : ℚ) / ((fs.app_size + ts : Nat) : ℚ) * r)) ++
      progressValues (update_flash_section Z P fs.tables.headI.offset ts true
        ((fs.app_size : ℚ) / ((fs.app_size + ts : Nat) : ℚ) * r)
        ((ts : ℚ) / ((fs.app_size + ts : Nat) : ℚ) * r)) := by
    simp only [update_section, progressValues_append]
  have hb1 := progressValues_update_flash_section_bounds Z P fs.offset
    fs.app_size 0 ((fs.app_size : ℚ) / ((fs.app_size + ts : Nat) : ℚ) * r) ha0
  have hb2 := progressValues_update_flash_section_bounds Z P
    fs.tables.headI.offset ts
    ((fs.app_size : ℚ) / ((fs.app_size + ts : Nat) : ℚ) * r)
    ((ts : ℚ) / ((fs.app_size + ts : Nat) : ℚ) * r) ht0
  constructor
  · rw [hpv, List.chain'_append]
    refine ⟨progressValues_update_flash_section_chain Z P fs.offset fs.app_size
        0 _ ha0,
      progressValues_update_flash_section_chain Z P fs.tables.headI.offset ts
        _ _ ht0, ?_⟩
    intro x hx y hy
    have hx' := (hb1 x (List.mem_of_mem_getLast? hx)).2
    have hy' := (hb2 y (List.mem_of_mem_head? hy)).1
    linarith
  · rw [hpv]
    intro x hx
    rcases List.mem_append.1 hx with h | h
    · have := hb1 x h
      constructor
      · linarith [this.1]
      · linarith [this.2]
    · have := hb2 x h
      constructor
      · linarith [this.1]
      · linarith [this.2]

theorem backup_flash_noFail_false_char :
    backup_flash noFail false =
      ((List.range' 0 2065).flatMap (backupChunkEvs 1016 2065 2097152 false),
        none) := by
  have h0 : backup_flash noFail false =
      backupLoop noFail 2097152 1016 2065 false 2065 0 := rfl
  rw [h0, backupLoop_char noFail 2097152 1016 2065 false 2065 0
    (fun _ _ _ => rfl)]
  simp

theorem progressValues_flatMap_backupChunkEvs_false
    (max_bulk_size max_iterations flash_size : Nat) :
    ∀ L : List Nat,
      progressValues
        (L.flatMap (backupChunkEvs max_bulk_size max_iterations flash_size false)) =
        [] := by
  intro L
  induction L with
  | nil => simp [progressValues]
  | cons k L ih =>
    simp only [List.flatMap_cons, progressValues_append, ih, backupChunkEvs]
    simp [progressValues]

theorem progressValues_backup_flash_noFail_false :
    progressValues (backup_flash noFail false).1 = [] := by
  rw [backup_flash_noFail_false_char]
  exact progressValues_flatMap_backupChunkEvs_false 1016 2065 2097152 _

theorem update_flash_full_eq (Z P : Nat) (info : flash_info)
    (records : Nat → AlResult) (bfails : Nat → Nat → Bool) (image : List Nat)
    (hasCb : Bool) :
    update_flash Z P info records bfails image hasCb
        RS2_UNSIGNED_UPDATE_MODE_FULL =
      ([Ev.cmd Cmd.PFD] ++ update_flash_section Z P 0 FLASH_SIZE hasCb 0 1 ++
        ((if hasCb then [Ev.progress 1] else []) ++ [Ev.cmd Cmd.HWRST]), none) := by
  simp [update_flash, update_flash_body]

theorem update_flash_update_eq (Z P : Nat) (info : flash_info)
    (records : Nat → AlResult) (image : List Nat) (hasCb : Bool) :
    update_flash Z P info records noFail image hasCb
        RS2_UNSIGNED_UPDATE_MODE_UPDATE =
      ([Ev.cmd Cmd.PFD] ++ ((backup_flash noFail false).1 ++
        update_flash_internal Z P info hasCb RS2_UNSIGNED_UPDATE_MODE_UPDATE) ++
        ((if hasCb then [Ev.progress 1] else []) ++ [Ev.cmd Cmd.HWRST]), none) := by
  simp [update_flash, update_flash_body, RS2_UNSIGNED_UPDATE_MODE_UPDATE,
    RS2_UNSIGNED_UPDATE_MODE_FULL, RS2_UNSIGNED_UPDATE_MODE_READ_ONLY,
    AL3D_UNSIGNED_UPDATE_MODE_FULL, backup_flash_noFail_false_char]

theorem update_flash_internal_update_pv (Z P : Nat) (info : flash_info) :
    progressValues
        (update_flash_internal Z P info true RS2_UNSIGNED_UPDATE_MODE_UPDATE) =
      progressValues (update_section Z P info.read_write_section
        (info.header.read_write_start_address + info.header.read_write_size -
          info.read_write_section.tables.headI.offset) true 0 1) := by
  simp [update_flash_internal, RS2_UNSIGNED_UPDATE_MODE_UPDATE,
    RS2_UNSIGNED_UPDATE_MODE_READ_ONLY, progressValues_append, progressValues]


/-- Claim C4, counterexample.  In READ_ONLY mode the tables sub-phase of
each section restarts from app_ratio instead of continue_from + app_ratio
(ds5-device.cpp:280), so with the concrete layout sampleInfo the progress
sequence emitted between the backup and the final 1.0 is
[0, 3/8, 2/3, 7/16]: after the read-only app phase reports 2/3 (≥ 0.5) the
read-only tables phase reports 7/16 (< 0.5) — not monotonically
non-decreasing. -/
theorem update_progress_claim_false :
    progressValues (update_flash_internal 8 8 sampleInfo true 2) =
      [0, 3/8, 2/3, 7/16] ∧
    ¬ List.Chain' (· ≤ ·)
      (progressValues (update_flash_internal 8 8 sampleInfo true 2)) := by
  have hpv : progressValues (update_flash_internal 8 8 sampleInfo true 2) =
      [0, 3/8, 2/3, 7/16] := by
    norm_num [update_flash_internal, update_section,
      RS2_UNSIGNED_UPDATE_MODE_READ_ONLY, sampleInfo, progressValues_append,
      progressValues_update_flash_section, sectorSpan, sectorTotal,
      List.range', List.headI]
  refine ⟨hpv, ?_⟩
  rw [hpv]
  intro hch
  rw [List.chain'_cons, List.chain'_cons, List.chain'_cons] at hch
  have h23 : (2 : ℚ) / 3 ≤ 7 / 16 := hch.2.2.1
  norm_num at h23

/-- Claim C4, amended: within one update_flash invocation the progress
fractions are monotonically non-decreasing with final value exactly 1.0 in
FULL and UPDATE modes; in READ_ONLY mode monotonicity fails (see the
counterexample) because update_section passes app_ratio instead of
continue_from + app_ratio as the base of the tables phase, making the
second half of the progress range restart below 0.5. -/
theorem update_progress_amended (Z P : Nat) (info : flash_info)
    (records : Nat → AlResult) (image : List Nat) (mode : Nat)
    (hmode : mode = RS2_UNSIGNED_UPDATE_MODE_FULL ∨
      mode = RS2_UNSIGNED_UPDATE_MODE_UPDATE) :
    (update_flash Z P info records noFail image true mode).2 = none ∧
    List.Chain' (· ≤ ·)
      (progressValues (update_flash Z P info records noFail image true mode).1) ∧
    (progressValues
      (update_flash Z P info records noFail image true mode).1).getLast? =
        some 1 := by
  rcases hmode with rfl | rfl
  · rw [update_flash_full_eq]
    have hpv : progressValues (([Ev.cmd Cmd.PFD] ++
        update_flash_section Z P 0 FLASH_SIZE true 0 1 ++
        ((if true then [Ev.progress 1] else []) ++ [Ev.cmd Cmd.HWRST]),
        (none : Option Err)).1) =
        progressValues (update_flash_section Z P 0 FLASH_SIZE true 0 1) ++
          [1] := by
      simp [progressValues_append, progressValues_cmd_cons,
        progressValues_progress_cons, progressValues_nil]
    refine ⟨rfl, ?_, ?_⟩
    · rw [hpv, List.chain'_append]
      refine ⟨progressValues_update_flash_section_chain Z P 0 FLASH_SIZE 0 1
        (by norm_num), List.chain'_singleton 1, ?_⟩
      intro x hx y hy
      have hx' := (progressValues_update_flash_section_bounds Z P 0 FLASH_SIZE
        0 1 (by norm_num) x (List.mem_of_mem_getLast? hx)).2
      simp only [List.head?_cons, Option.mem_def, Option.some.injEq] at hy
      subst hy
      linarith
    · rw [hpv]
      exact List.getLast?_concat _
  · rw [update_flash_update_eq]
    have hpv : progressValues (([Ev.cmd Cmd.PFD] ++
        ((backup_flash noFail false).1 ++
          update_flash_internal Z P info true RS2_UNSIGNED_UPDATE_MODE_UPDATE) ++
        ((if true then [Ev.progress 1] else []) ++ [Ev.cmd Cmd.HWRST]),
        (none : Option Err)).1) =
        progressValues (update_section Z P info.read_write_section
          (info.header.read_write_start_address + info.header.read_write_size -
            info.read_write_section.tables.headI.offset) true 0 1) ++ [1] := by
      simp [progressValues_append, progressValues_cmd_cons,
        progressValues_progress_cons, progressValues_nil,
        progressValues_backup_flash_noFail_false,
        update_flash_internal_update_pv]
    obtain ⟨hch, hbounds⟩ := update_section_chain_zero Z P
      info.read_write_section
      (info.header.read_write_start_address + info.header.read_write_size -
        info.read_write_section.tables.headI.offset) 1 (by norm_num)
    refine ⟨rfl, ?_, ?_⟩
    · rw [hpv, List.chain'_append]
      refine ⟨hch, List.chain'_singleton 1, ?_⟩
      intro x hx y hy
      have hx' := (hbounds x (List.mem_of_mem_getLast? hx)).2
      simp only [List.head?_cons, Option.mem_def, Option.some.injEq] at hy
      subst hy
      linarith
    · rw [hpv]
      exact List.getLast?_concat _

/-- Witness for update_progress_amended in UPDATE mode with the sampleInfo
layout at Z = P = 8. -/
theorem update_progress_amended_witness :
    (update_flash 8 8 sampleInfo zeroRecords noFail [] true
      RS2_UNSIGNED_UPDATE_MODE_UPDATE).2 = none ∧
    List.Chain' (· ≤ ·)
      (progressValues (update_flash 8 8 sampleInfo zeroRecords noFail [] true
        RS2_UNSIGNED_UPDATE_MODE_UPDATE).1) ∧
    (progressValues (update_flash 8 8 sampleInfo zeroRecords noFail [] true
      RS2_UNSIGNED_UPDATE_MODE_UPDATE).1).getLast? = some 1 :=
  update_progress_amended 8 8 sampleInfo zeroRecords []
    RS2_UNSIGNED_UPDATE_MODE_UPDATE (Or.inr rfl)


/-! The hardware-reset command appears in no sub-operation trace
(claims C5 and C6). -/

theorem hwrst_not_mem_writePackets (Z P s offset size : Nat) :
    ∀ fuel i, Ev.cmd Cmd.HWRST ∉ writePackets Z P s offset size fuel i := by
  intro fuel
  induction fuel with
  | zero => intro i; simp [writePackets]
  | succ n ih =>
    intro i
    simp only [writePackets]
    split
    · split
      · simp
      · simp [ih]
    · simp

theorem hwrst_not_mem_update_flash_section (Z P offset size : Nat)
    (hasCb : Bool) (cf r : ℚ) :
    Ev.cmd Cmd.HWRST ∉ update_flash_section Z P offset size hasCb cf r := by
  simp only [update_flash_section, List.mem_flatMap]
  rintro ⟨s, hs, hmem⟩
  simp only [sectorBlock, List.mem_cons, List.mem_append] at hmem
  rcases hmem with h | h | h
  · simp at h
  · exact hwrst_not_mem_writePackets Z P s offset size Z 0 h
  · cases hasCb <;> simp at h

theorem hwrst_not_mem_update_section (Z P : Nat) (fs : flash_section)
    (ts : Nat) (hasCb : Bool) (cf r : ℚ) :
    Ev.cmd Cmd.HWRST ∉ update_section Z P fs ts hasCb cf r := by
  simp only [update_section, List.mem_append]
  rintro (h | h)
  · exact hwrst_not_mem_update_flash_section _ _ _ _ _ _ _ h
  · exact hwrst_not_mem_update_flash_section _ _ _ _ _ _ _ h

theorem hwrst_not_mem_update_flash_internal (Z P : Nat) (info : flash_info)
    (hasCb : Bool) (mode : Nat) :
    Ev.cmd Cmd.HWRST ∉ update_flash_internal Z P info hasCb mode := by
  simp only [update_flash_internal, List.mem_append]
  rintro (h | h)
  · exact hwrst_not_mem_update_section _ _ _ _ _ _ _ h
  · split at h
    · exact hwrst_not_mem_update_section _ _ _ _ _ _ _ h
    · simp at h

theorem hwrst_not_mem_backupRetryLoop (fails : Nat → Nat → Bool)
    (i offset size : Nat) :
    ∀ fuel j, Ev.cmd Cmd.HWRST ∉ (backupRetryLoop fails i offset size fuel j).1 := by
  intro fuel
  induction fuel with
  | zero => intro j; simp [backupRetryLoop]
  | succ n ih =>
    intro j
    simp only [backupRetryLoop]
    split
    · split
      · simp [ih]
      · simp
    · simp

theorem hwrst_not_mem_backupLoop (fails : Nat → Nat → Bool)
    (flash_size max_bulk_size max_iterations : Nat) (hasCb : Bool) :
    ∀ fuel i,
      Ev.cmd Cmd.HWRST ∉
        (backupLoop fails flash_size max_bulk_size max_iterations hasCb fuel i).1 := by
  intro fuel
  induction fuel with
  | zero => intro i; cases hasCb <;> simp [backupLoop]
  | succ n ih =>
    intro i
    simp only [backupLoop]
    split
    · rename_i evs x e heq
      have h1 := hwrst_not_mem_backupRetryLoop fails i (max_bulk_size * i)
        (if i = max_iterations - 1 then flash_size - max_bulk_size * i
         else max_bulk_size) 3 0
      rw [heq] at h1
      simpa using h1
    · rename_i evs x heq
      have h1 := hwrst_not_mem_backupRetryLoop fails i (max_bulk_size * i)
        (if i = max_iterations - 1 then flash_size - max_bulk_size * i
         else max_bulk_size) 3 0
      rw [heq] at h1
      simp only [List.mem_append]
      rintro ((h | h) | h)
      · exact h1 h
      · cases hasCb <;> simp at h
      · exact ih (i + 1) h

theorem hwrst_not_mem_backup_flash (fails : Nat → Nat → Bool) (hasCb : Bool) :
    Ev.cmd Cmd.HWRST ∉ (backup_flash fails hasCb).1 :=
  hwrst_not_mem_backupLoop fails (1024 * 2048) 1016 (1024 * 2048 / 1016 + 1)
    hasCb (1024 * 2048 / 1016 + 1) 0

theorem cmd_ne_floatDivProgress (c : Cmd) (a b : Nat) :
    Ev.cmd c ≠ floatDivProgress a b := by
  unfold floatDivProgress
  split
  · split <;> simp
  · simp

theorem hwrst_not_mem_al3dBlockLoop (image : List Nat) (blocks_count : Nat)
    (hasCb : Bool) :
    ∀ fuel remaining offset bn,
      Ev.cmd Cmd.HWRST ∉
        al3dBlockLoop image blocks_count hasCb fuel remaining offset bn := by
  intro fuel
  induction fuel with
  | zero => intro r o b; simp [al3dBlockLoop]
  | succ n ih =>
    intro r o b
    simp only [al3dBlockLoop]
    split
    · simp
    · split
      · simp
      · simp only [List.mem_cons, List.mem_append]
        rintro (h | h | h)
        · simp at h
        · cases hasCb
          · simp at h
          · simp at h
            exact cmd_ne_floatDivProgress _ _ _ h
        · exact ih _ _ _ h

theorem hwrst_not_mem_al3dPollLoop (records : Nat → AlResult) :
    ∀ fuel i, Ev.cmd Cmd.HWRST ∉ (al3dPollLoop records fuel i).1 := by
  intro fuel
  induction fuel with
  | zero => intro i; simp [al3dPollLoop]
  | succ n ih =>
    intro i
    simp only [al3dPollLoop]
    split
    · simp
    · split
      · simp
      · simp [ih]

theorem hwrst_not_mem_al3d (image : List Nat) (records : Nat → AlResult)
    (hasCb : Bool) (mode : Nat) :
    Ev.cmd Cmd.HWRST ∉ (al3d_fw_update_start image records hasCb mode).1 := by
  simp only [al3d_fw_update_start]
  split
  · split
    · rename_i pollEvs e heq
      have hp := hwrst_not_mem_al3dPollLoop records max_loop 0
      rw [heq] at hp
      simp only [List.mem_append, List.mem_cons]
      rintro ((((h | h) | h) | h) | h)
      · simp at h
      · simp at h
      · exact hwrst_not_mem_al3dBlockLoop image _ hasCb _ _ _ _ h
      · simp at h
      · exact hp h
    · rename_i pollEvs heq
      have hp := hwrst_not_mem_al3dPollLoop records max_loop 0
      rw [heq] at hp
      simp only [List.mem_append, List.mem_cons]
      rintro (((((h | h) | h) | h) | h) | h)
      · simp at h
      · simp at h
      · exact hwrst_not_mem_al3dBlockLoop image _ hasCb _ _ _ _ h
      · simp at h
      · exact hp h
      · cases hasCb
        · simp at h
        · simp at h
          exact cmd_ne_floatDivProgress _ _ _ h
  · simp

theorem hwrst_not_mem_update_flash_body (Z P : Nat) (info : flash_info)
    (records : Nat → AlResult) (bfails : Nat → Nat → Bool) (image : List Nat)
    (hasCb : Bool) (mode : Nat) :
    Ev.cmd Cmd.HWRST ∉
      (update_flash_body Z P info records bfails image hasCb mode).1 := by
  simp only [update_flash_body]
  split
  · exact hwrst_not_mem_update_flash_section _ _ _ _ _ _ _
  · split
    · split
      · rename_i bevs e heq
        have hb := hwrst_not_mem_backup_flash bfails false
        rw [heq] at hb
        simpa using hb
      · rename_i bevs heq
        have hb := hwrst_not_mem_backup_flash bfails false
        rw [heq] at hb
        simp only [List.mem_append]
        rintro (h | h)
        · exact hb h
        · exact hwrst_not_mem_update_flash_internal _ _ _ _ _ h
    · split
      · exact hwrst_not_mem_al3d _ _ _ _
      · simp


/-- Claim C5, counterexample.  update_flash with the unrecognized mode 99
throws the invalid-mode error and the emitted trace is exactly [PFD]: the
device reset (HWRST) is NOT issued when the update has failed — there is
no try/finally around the mode switch (ds5-device.cpp:446-471), so the
claimed unconditional reset does not happen on the failure path. -/
theorem reset_claim_false :
    update_flash 1 1 sampleInfo zeroRecords noFail [] false 99 =
      ([Ev.cmd Cmd.PFD], some Err.invalidMode) ∧
    Ev.cmd Cmd.HWRST ∉ ([Ev.cmd Cmd.PFD] : List Ev) :=
  ⟨by decide, by decide⟩

/-- Claim C5, amended: update_flash issues HWRST, as its final command,
exactly when the update body succeeds; when the body throws (unrecognized
mode, a backup transport failure, or an AL3D poll fault) the exception
propagates and no reset command is issued at all. -/
theorem reset_on_success_amended (Z P : Nat) (info : flash_info)
    (records : Nat → AlResult) (bfails : Nat → Nat → Bool) (image : List Nat)
    (hasCb : Bool) (mode : Nat) :
    (∀ tr, update_flash Z P info records bfails image hasCb mode = (tr, none) →
      tr.getLast? = some (Ev.cmd Cmd.HWRST)) ∧
    (∀ tr e, update_flash Z P info records bfails image hasCb mode =
        (tr, some e) →
      Ev.cmd Cmd.HWRST ∉ tr) := by
  rcases hb : update_flash_body Z P info records bfails image hasCb mode with
    ⟨evs, oe⟩
  have hbody := hwrst_not_mem_update_flash_body Z P info records bfails image
    hasCb mode
  rw [hb] at hbody
  constructor
  · intro tr htr
    cases oe with
    | none =>
      simp only [update_flash, hb] at htr
      rw [Prod.mk.injEq] at htr
      obtain ⟨h1, -⟩ := htr
      subst h1
      simpa using List.getLast?_concat
        (Ev.cmd Cmd.PFD :: (evs ++ (if hasCb then [Ev.progress 1] else [])))
    | some e =>
      simp only [update_flash, hb] at htr
      simp at htr
  · intro tr e' htr
    cases oe with
    | none =>
      simp only [update_flash, hb] at htr
      simp at htr
    | some e =>
      simp only [update_flash, hb] at htr
      rw [Prod.mk.injEq] at htr
      obtain ⟨h1, -⟩ := htr
      subst h1
      have hb2 : Ev.cmd Cmd.HWRST ∉ evs := by simpa using hbody
      simp [hb2]

/-- Witness for reset_on_success_amended: a successful FULL update at
Z = P = FLASH_SIZE ends with the reset command. -/
theorem reset_on_success_amended_witness :
    ([Ev.cmd Cmd.PFD, Ev.cmd (Cmd.FES 0 1), Ev.cmd (Cmd.FWB 0 2097152),
      Ev.cmd Cmd.HWRST] : List Ev).getLast? = some (Ev.cmd Cmd.HWRST) :=
  (reset_on_success_amended 2097152 2097152 sampleInfo zeroRecords noFail []
    false 0).1
    [Ev.cmd Cmd.PFD, Ev.cmd (Cmd.FES 0 1), Ev.cmd (Cmd.FWB 0 2097152),
      Ev.cmd Cmd.HWRST]
    (by decide)

/-- Claim C6, counterexample.  The invalid-mode failure is not raised
before any device access: the trace for unrecognized mode 7 is [PFD], not
[] — the depth sensor is powered and the PFD command is sent to the device
before the mode switch runs (ds5-device.cpp:440-444). -/
theorem invalid_mode_claim_false :
    update_flash 4 4 sampleInfo zeroRecords noFail [] true 7 =
      ([Ev.cmd Cmd.PFD], some Err.invalidMode) ∧
    ([Ev.cmd Cmd.PFD] : List Ev) ≠ [] :=
  ⟨by decide, by decide⟩

/-- Claim C6, amended: for every unrecognized mode value update_flash
fails immediately with the invalid-mode error before any flash access —
the full trace is exactly the PFD command, so no flash read, erase, write
or reset is issued — but after the device has been powered and PFD has
been sent. -/
theorem invalid_mode_amended (Z P : Nat) (info : flash_info)
    (records : Nat → AlResult) (bfails : Nat → Nat → Bool) (image : List Nat)
    (hasCb : Bool) (mode : Nat)
    (h0 : mode ≠ RS2_UNSIGNED_UPDATE_MODE_FULL)
    (h1 : mode ≠ RS2_UNSIGNED_UPDATE_MODE_UPDATE)
    (h2 : mode ≠ RS2_UNSIGNED_UPDATE_MODE_READ_ONLY)
    (h3 : mode ≠ AL3D_UNSIGNED_UPDATE_MODE_FULL) :
    update_flash Z P info records bfails image hasCb mode =
      ([Ev.cmd Cmd.PFD], some Err.invalidMode) := by
  simp [update_flash, update_flash_body, h0, h1, h2, h3]

/-- Witness for invalid_mode_amended at mode 42. -/
theorem invalid_mode_amended_witness :
    update_flash 4 4 sampleInfo zeroRecords noFail [] false 42 =
      ([Ev.cmd Cmd.PFD], some Err.invalidMode) :=
  invalid_mode_amended 4 4 sampleInfo zeroRecords noFail [] false 42
    (by decide) (by decide) (by decide) (by decide)


/-! Behaviour of the AL3D completion poll loop (claim C8). -/

theorem al3dPollLoop_zero (records : Nat → AlResult) :
    ∀ k fuel i, k < fuel → alZero (records (i + k)) →
      (∀ j, j < k → ¬ alZero (records (i + j)) ∧ ¬ alFault (records (i + j))) →
      al3dPollLoop records fuel i =
        (List.replicate (k + 1) (Ev.cmd Cmd.alGet), none) := by
  intro k
  induction k with
  | zero =>
    intro fuel i hk hz hben
    obtain ⟨f, rfl⟩ : ∃ f, fuel = f + 1 := ⟨fuel - 1, by omega⟩
    rw [Nat.add_zero] at hz
    simp only [al3dPollLoop, if_pos (show (records i).b0 = 0 ∧ (records i).b1 = 0 ∧
      (records i).b2 = 0 ∧ (records i).b3 = 0 from hz)]
    rfl
  | succ m ih =>
    intro fuel i hk hz hben
    obtain ⟨f, rfl⟩ : ∃ f, fuel = f + 1 := ⟨fuel - 1, by omega⟩
    have hb0 := hben 0 (Nat.succ_pos m)
    rw [Nat.add_zero] at hb0
    have hz0 : ¬ ((records i).b0 = 0 ∧ (records i).b1 = 0 ∧
        (records i).b2 = 0 ∧ (records i).b3 = 0) := hb0.1
    have hf0 : ¬ ((records i).b0 = 0x80 ∨ (records i).b0 = 0x82) := hb0.2
    have hrec := ih f (i + 1) (by omega)
      (by rw [show i + 1 + m = i + (m + 1) by omega]; exact hz)
      (fun j hj => by
        rw [show i + 1 + j = i + (j + 1) by omega]
        exact hben (j + 1) (by omega))
    simp only [al3dPollLoop, if_neg hz0, if_neg hf0, hrec]
    rfl

theorem al3dPollLoop_fault (records : Nat → AlResult) :
    ∀ k fuel i, k < fuel → alFault (records (i + k)) →
      (∀ j, j < k → ¬ alZero (records (i + j)) ∧ ¬ alFault (records (i + j))) →
      al3dPollLoop records fuel i =
        (List.replicate (k + 1) (Ev.cmd Cmd.alGet), some Err.deviceFault) := by
  intro k
  induction k with
  | zero =>
    intro fuel i hk hfau hben
    obtain ⟨f, rfl⟩ : ∃ f, fuel = f + 1 := ⟨fuel - 1, by omega⟩
    rw [Nat.add_zero] at hfau
    have hz0 : ¬ ((records i).b0 = 0 ∧ (records i).b1 = 0 ∧
        (records i).b2 = 0 ∧ (records i).b3 = 0) := by
      rintro ⟨h0, -⟩
      rcases hfau with h | h <;> omega
    simp only [al3dPollLoop, if_neg hz0,
      if_pos (show (records i).b0 = 0x80 ∨ (records i).b0 = 0x82 from hfau)]
    rfl
  | succ m ih =>
    intro fuel i hk hfau hben
    obtain ⟨f, rfl⟩ : ∃ f, fuel = f + 1 := ⟨fuel - 1, by omega⟩
    have hb0 := hben 0 (Nat.succ_pos m)
    rw [Nat.add_zero] at hb0
    have hz0 : ¬ ((records i).b0 = 0 ∧ (records i).b1 = 0 ∧
        (records i).b2 = 0 ∧ (records i).b3 = 0) := hb0.1
    have hf0 : ¬ ((records i).b0 = 0x80 ∨ (records i).b0 = 0x82) := hb0.2
    have hrec := ih f (i + 1) (by omega)
      (by rw [show i + 1 + m = i + (m + 1) by omega]; exact hfau)
      (fun j hj => by
        rw [show i + 1 + j = i + (j + 1) by omega]
        exact hben (j + 1) (by omega))
    simp only [al3dPollLoop, if_neg hz0, if_neg hf0, hrec]
    rfl

theorem al3dPollLoop_length (records : Nat → AlResult) :
    ∀ fuel i, (al3dPollLoop records fuel i).1.length ≤ fuel := by
  intro fuel
  induction fuel with
  | zero => intro i; simp [al3dPollLoop]
  | succ n ih =>
    intro i
    simp only [al3dPollLoop]
    split
    · simp
    · split
      · simp
      · simpa using Nat.succ_le_succ (ih (i + 1))

/-- Claim C8: in the AL3D completion poll loop, (a) if the observed record
at iteration k < 600 has its first four sub-fields all zero and every
earlier iteration observed a busy record (neither completion nor fault),
the loop stops right there — exactly k+1 result reads, no error; (b) if
the record at iteration k is a fault sentinel (first byte 0x80 or 0x82)
after k busy iterations, the loop aborts right there with the fatal
device-fault error; (c) the loop never performs more than
max_loop = 600 iterations. -/
theorem al3d_poll_spec :
    (∀ (records : Nat → AlResult) (k : Nat), k < max_loop →
      alZero (records k) →
      (∀ j, j < k → ¬ alZero (records j) ∧ ¬ alFault (records j)) →
      al3dPollLoop records max_loop 0 =
        (List.replicate (k + 1) (Ev.cmd Cmd.alGet), none)) ∧
    (∀ (records : Nat → AlResult) (k : Nat), k < max_loop →
      alFault (records k) →
      (∀ j, j < k → ¬ alZero (records j) ∧ ¬ alFault (records j)) →
      al3dPollLoop records max_loop 0 =
        (List.replicate (k + 1) (Ev.cmd Cmd.alGet), some Err.deviceFault)) ∧
    (∀ records : Nat → AlResult,
      (al3dPollLoop records max_loop 0).1.length ≤ max_loop) := by
  refine ⟨?_, ?_, ?_⟩
  · intro records k hk hz hben
    exact al3dPollLoop_zero records k max_loop 0 hk (by simpa using hz)
      (fun j hj => by simpa using hben j hj)
  · intro records k hk hf hben
    exact al3dPollLoop_fault records k max_loop 0 hk (by simpa using hf)
      (fun j hj => by simpa using hben j hj)
  · intro records
    exact al3dPollLoop_length records max_loop 0

/-- Witness for al3d_poll_spec: with two busy records followed by an
all-zero record, the loop stops after exactly three reads. -/
theorem al3d_poll_spec_witness :
    al3dPollLoop sampleRecords max_loop 0 =
      (List.replicate 3 (Ev.cmd Cmd.alGet), none) :=
  al3d_poll_spec.1 sampleRecords 2 (by decide) (by decide) (by decide)


/-! Behaviour of the AL3D block-transfer loop (claim C7). -/

theorem dataBlocks_nil : dataBlocks [] = [] := rfl

theorem dataBlocks_alData_cons (b : List Nat) (t : List Ev) :
    dataBlocks (Ev.cmd (Cmd.alData b) :: t) = b :: dataBlocks t := rfl

theorem dataBlocks_progress_cons (q : ℚ) (t : List Ev) :
    dataBlocks (Ev.progress q :: t) = dataBlocks t := rfl

theorem dataBlocks_alSet_cons (p q : Nat) (t : List Ev) :
    dataBlocks (Ev.cmd (Cmd.alSet p q) :: t) = dataBlocks t := rfl

theorem dataBlocks_alGet_cons (t : List Ev) :
    dataBlocks (Ev.cmd Cmd.alGet :: t) = dataBlocks t := rfl

theorem dataBlocks_floatDivProgress_cons (a b : Nat) (t : List Ev) :
    dataBlocks (floatDivProgress a b :: t) = dataBlocks t := by
  unfold floatDivProgress
  split
  · split <;> rfl
  · rfl

theorem progressCalls_nil : progressCalls [] = [] := rfl

theorem progressCalls_append (t₁ t₂ : List Ev) :
    progressCalls (t₁ ++ t₂) = progressCalls t₁ ++ progressCalls t₂ := by
  simp [progressCalls]

theorem progressCalls_cmd_cons (c : Cmd) (t : List Ev) :
    progressCalls (Ev.cmd c :: t) = progressCalls t := rfl

theorem progressCalls_progress_cons (q : ℚ) (t : List Ev) :
    progressCalls (Ev.progress q :: t) = Ev.progress q :: progressCalls t := rfl

theorem progressCalls_floatDivProgress_cons (a b : Nat) (t : List Ev) :
    progressCalls (floatDivProgress a b :: t) =
      floatDivProgress a b :: progressCalls t := by
  unfold floatDivProgress
  split
  · split <;> rfl
  · rfl

theorem dataBlocks_al3dPollLoop (records : Nat → AlResult) :
    ∀ fuel i, dataBlocks (al3dPollLoop records fuel i).1 = [] := by
  intro fuel
  induction fuel with
  | zero => intro i; rfl
  | succ n ih =>
    intro i
    simp only [al3dPollLoop]
    split
    · rfl
    · split
      · rfl
      · simpa [dataBlocks_alGet_cons] using ih (i + 1)

theorem progressCalls_al3dPollLoop (records : Nat → AlResult) :
    ∀ fuel i, progressCalls (al3dPollLoop records fuel i).1 = [] := by
  intro fuel
  induction fuel with
  | zero => intro i; rfl
  | succ n ih =>
    intro i
    simp only [al3dPollLoop]
    split
    · rfl
    · split
      · rfl
      · simpa [progressCalls_cmd_cons] using ih (i + 1)

theorem map_range'_shift {α : Type} (f : Nat → α) :
    ∀ n s, (List.range' (s + 1) n).map f =
      (List.range' s n).map (fun j => f (j + 1)) := by
  intro n
  induction n with
  | zero => intro s; simp
  | succ m ih =>
    intro s
    rw [List.range'_succ, List.range'_succ, List.map_cons, List.map_cons,
      ih (s + 1)]

theorem al3dBlockLoop_blocks (image : List Nat) (bc : Nat) :
    ∀ fuel R o bn, image.length = o + R → R / 512 < fuel →
      (dataBlocks (al3dBlockLoop image bc true fuel R o bn)).length =
        (R + 511) / 512 ∧
      (∀ b ∈ dataBlocks (al3dBlockLoop image bc true fuel R o bn),
        b.length = 512) ∧
      (dataBlocks (al3dBlockLoop image bc true fuel R o bn)).flatten =
        image.drop o ++ List.replicate ((512 - R % 512) % 512) 0 := by
  intro fuel
  induction fuel with
  | zero =>
    intro R o bn hlen hfuel
    omega
  | succ n ih =>
    intro R o bn hlen hfuel
    by_cases hR0 : R = 0
    · subst hR0
      have hdrop : image.drop o = [] :=
        List.drop_eq_nil_of_le (by omega)
      simp [al3dBlockLoop, dataBlocks, hdrop]
    · by_cases hRlt : R < 512
      · have htake : (image.drop o).take R = image.drop o :=
          List.take_of_length_le (by simp [List.length_drop]; omega)
        have hpad : (512 - R % 512) % 512 = 512 - R := by omega
        simp only [al3dBlockLoop, if_neg hR0, if_pos hRlt]
        refine ⟨by simp [dataBlocks_alData_cons, dataBlocks_nil]; omega, ?_, ?_⟩
        · intro b hb
          simp only [dataBlocks_alData_cons, dataBlocks_nil,
            List.mem_singleton] at hb
          subst hb
          simp [List.length_take, List.length_drop]
          omega
        · simp only [dataBlocks_alData_cons, dataBlocks_nil,
            List.flatten_cons, List.flatten_nil]
          rw [htake, hpad]
          simp
      · obtain ⟨ihlen, ihall, ihflat⟩ := ih (R - 512) (o + 512)
          ((bn + 1) % 65536) (by omega) (by omega)
        have hstep : al3dBlockLoop image bc true (n + 1) R o bn =
            Ev.cmd (Cmd.alData ((image.drop o).take 512)) ::
              (floatDivProgress ((bn + 1) % 65536) bc ::
                al3dBlockLoop image bc true n (R - 512) (o + 512)
                  ((bn + 1) % 65536)) := by
          simp only [al3dBlockLoop, if_neg hR0, if_neg (by omega : ¬ R < 512)]
          rfl
        rw [hstep]
        have hheadlen : ((image.drop o).take 512).length = 512 := by
          simp [List.length_take, List.length_drop]
          omega
        refine ⟨?_, ?_, ?_⟩
        · simp only [dataBlocks_alData_cons, dataBlocks_floatDivProgress_cons,
            List.length_cons, ihlen]
          omega
        · intro b hb
          simp only [dataBlocks_alData_cons, dataBlocks_floatDivProgress_cons,
            List.mem_cons] at hb
          rcases hb with rfl | hb
          · exact hheadlen
          · exact ihall b hb
        · simp only [dataBlocks_alData_cons, dataBlocks_floatDivProgress_cons,
            List.flatten_cons, ihflat]
          have hm2 : (512 - (R - 512) % 512) % 512 = (512 - R % 512) % 512 := by
            omega
          rw [hm2]
          have hdd : image.drop (o + 512) = (image.drop o).drop 512 := by
            rw [List.drop_drop]
          rw [hdd, ← List.append_assoc, List.take_append_drop]

theorem al3dBlockLoop_progressCalls (image : List Nat) (bc : Nat) :
    ∀ fuel R o bn, R / 512 < fuel →
      progressCalls (al3dBlockLoop image bc true fuel R o bn) =
        (List.range' 1 (R / 512)).map
          (fun j : Nat => floatDivProgress ((bn + j) % 65536) bc) := by
  intro fuel
  induction fuel with
  | zero =>
    intro R o bn hfuel
    omega
  | succ n ih =>
    intro R o bn hfuel
    by_cases hR0 : R = 0
    · subst hR0
      simp [al3dBlockLoop, progressCalls_nil]
    · by_cases hRlt : R < 512
      · have hR512 : R / 512 = 0 := by omega
        simp [al3dBlockLoop, if_neg hR0, if_pos hRlt, progressCalls_cmd_cons,
          progressCalls_nil, hR512]
      · have hstep : al3dBlockLoop image bc true (n + 1) R o bn =
            Ev.cmd (Cmd.alData ((image.drop o).take 512)) ::
              (floatDivProgress ((bn + 1) % 65536) bc ::
                al3dBlockLoop image bc true n (R - 512) (o + 512)
                  ((bn + 1) % 65536)) := by
          simp only [al3dBlockLoop, if_neg hR0, if_neg (by omega : ¬ R < 512)]
          rfl
        rw [hstep, progressCalls_cmd_cons, progressCalls_floatDivProgress_cons,
          ih (R - 512) (o + 512) ((bn + 1) % 65536) (by omega)]
        obtain ⟨m, hm⟩ : ∃ m, R / 512 = m + 1 := ⟨R / 512 - 1, by omega⟩
        have hm3 : (R - 512) / 512 = m := by omega
        rw [hm, hm3, List.range'_succ, List.map_cons,
          map_range'_shift
            (fun j : Nat => floatDivProgress ((bn + j) % 65536) bc) m 1]
        have hfun : (fun j : Nat =>
            floatDivProgress (((bn + 1) % 65536 + j) % 65536) bc) =
            (fun j : Nat => floatDivProgress ((bn + (j + 1)) % 65536) bc) := by
          funext j
          rw [Nat.mod_add_mod]
          congr 2
          omega
        rw [hfun]

/-- Claim C7, counterexample.  For a 513-byte image the block loop (as
invoked by al3d_fw_update_start: blocks_count = floor(513/512) = 1,
fuel 2, remaining 513) sends two data blocks but reports progress only
once, with value 1/1 = 1 — not blocks_sent / ceil(L/512): the claimed
sequence 1/2 after the first block and 2/2 after the final padded block
is not what the code produces (no progress call follows the padded block,
and the denominator used is floor(L/512), not ceil). -/
theorem al3d_progress_claim_false :
    (dataBlocks (al3dBlockLoop sampleImage 1 true 2 513 0 0)).length = 2 ∧
    progressValues (al3dBlockLoop sampleImage 1 true 2 513 0 0) = [1] ∧
    progressValues (al3dBlockLoop sampleImage 1 true 2 513 0 0) ≠
      [1/2, 1] := by
  have hstep : al3dBlockLoop sampleImage 1 true 2 513 0 0 =
      Ev.cmd (Cmd.alData ((sampleImage.drop 0).take 512)) ::
        (floatDivProgress ((0 + 1) % 65536) 1 ::
          al3dBlockLoop sampleImage 1 true 1 (513 - 512) (0 + 512)
            ((0 + 1) % 65536)) := by
    simp only [al3dBlockLoop]
    norm_num
  have hstep2 : al3dBlockLoop sampleImage 1 true 1 (513 - 512) (0 + 512)
      ((0 + 1) % 65536) =
      [Ev.cmd (Cmd.alData (((sampleImage.drop (0 + 512)).take (513 - 512)) ++
        List.replicate (512 - (513 - 512)) 0))] := by
    simp only [al3dBlockLoop]
    norm_num
  have hfd : floatDivProgress ((0 + 1) % 65536) 1 = Ev.progress 1 := by
    norm_num [floatDivProgress]
  rw [hstep, hstep2, hfd]
  refine ⟨?_, ?_, ?_⟩
  · simp only [dataBlocks_alData_cons, dataBlocks_progress_cons,
      dataBlocks_nil]
    rfl
  · simp only [progressValues_cmd_cons, progressValues_progress_cons,
      progressValues_nil]
  · simp only [progressValues_cmd_cons, progressValues_progress_cons,
      progressValues_nil]
    intro h
    rw [List.cons.injEq] at h
    have h1 := h.1
    norm_num at h1

/-- Claim C7, amended: for every firmware blob and every poll-record
stream, the alternate engine sends exactly ceil(L/512) data blocks, each
exactly 512 bytes, whose concatenation is the image zero-padded to a
multiple of 512 (every tail byte beyond L is zero).  The progress sink is
invoked only after each FULL block — never after the trailing padded
block — with the float quotient block_number / blocks_count, both sides
truncated to uint16 (blocks_count = uint16(floor(L/512)), so the
denominator is a floor, not the claimed ceil); when the completion poll
does not fault, the sink then receives the float
(float)blocks_count / (float)blocks_count — exactly 1.0 when blocks_count
is nonzero, but IEEE NaN (0.0f / 0.0f) when L < 512, where blocks_count
is 0 — followed by the final 1.0; and the engine fails exactly when the
poll faults. -/
theorem al3d_blocks_amended (image : List Nat) (records : Nat → AlResult) :
    (al3d_fw_update_start image records true AL3D_UNSIGNED_UPDATE_MODE_FULL).2 =
      (al3dPollLoop records max_loop 0).2 ∧
    (dataBlocks (al3d_fw_update_start image records true
      AL3D_UNSIGNED_UPDATE_MODE_FULL).1).length =
      (image.length + 511) / 512 ∧
    (∀ b ∈ dataBlocks (al3d_fw_update_start image records true
      AL3D_UNSIGNED_UPDATE_MODE_FULL).1, b.length = 512) ∧
    (dataBlocks (al3d_fw_update_start image records true
      AL3D_UNSIGNED_UPDATE_MODE_FULL).1).flatten =
      image ++ List.replicate ((512 - image.length % 512) % 512) 0 ∧
    progressCalls (al3d_fw_update_start image records true
      AL3D_UNSIGNED_UPDATE_MODE_FULL).1 =
      (List.range' 1 (image.length / 512)).map
        (fun j : Nat => floatDivProgress (j % 65536)
          (image.length / 512 % 65536)) ++
      (if (al3dPollLoop records max_loop 0).2 = none then
        [floatDivProgress (image.length / 512 % 65536)
            (image.length / 512 % 65536), Ev.progress 1]
      else []) ∧
    (image.length < 512 → (al3dPollLoop records max_loop 0).2 = none →
      progressCalls (al3d_fw_update_start image records true
        AL3D_UNSIGNED_UPDATE_MODE_FULL).1 =
        [Ev.progressNaN, Ev.progress 1]) := by
  obtain ⟨hblen, hball, hbflat⟩ := al3dBlockLoop_blocks image
    (image.length / 512 % 65536) (image.length / 512 + 1) image.length 0 0
    (by omega) (by omega)
  have hpc := al3dBlockLoop_progressCalls image (image.length / 512 % 65536)
    (image.length / 512 + 1) image.length 0 0 (by omega)
  simp only [Nat.zero_add] at hpc
  rcases hpoll : al3dPollLoop records max_loop 0 with ⟨pollEvs, pe⟩
  have hdbp : dataBlocks pollEvs = [] := by
    have h := dataBlocks_al3dPollLoop records max_loop 0
    rw [hpoll] at h
    exact h
  have hpcp : progressCalls pollEvs = [] := by
    have h := progressCalls_al3dPollLoop records max_loop 0
    rw [hpoll] at h
    exact h
  cases pe with
  | none =>
    have h1 : al3d_fw_update_start image records true
        AL3D_UNSIGNED_UPDATE_MODE_FULL =
        (Ev.cmd (Cmd.alSet 0x00030001 ((image.length / 512) * 512 +
            (if image.length % 512 > 0 then 512 else 0))) ::
          (Ev.cmd Cmd.alGet ::
            (al3dBlockLoop image (image.length / 512 % 65536) true
                (image.length / 512 + 1) image.length 0 0 ++
              (Ev.cmd (Cmd.alSet 0x00030101 ((image.length / 512) * 512 +
                  (if image.length % 512 > 0 then 512 else 0))) ::
                (pollEvs ++
                  [floatDivProgress (image.length / 512 % 65536)
                      (image.length / 512 % 65536),
                    Ev.progress 1])))), none) := by
      simp [al3d_fw_update_start, hpoll]
    have hDB : dataBlocks (al3d_fw_update_start image records true
        AL3D_UNSIGNED_UPDATE_MODE_FULL).1 =
        dataBlocks (al3dBlockLoop image (image.length / 512 % 65536) true
          (image.length / 512 + 1) image.length 0 0) := by
      rw [h1]
      simp only [dataBlocks_alSet_cons, dataBlocks_alGet_cons,
        dataBlocks_append, hdbp, dataBlocks_floatDivProgress_cons,
        dataBlocks_progress_cons, dataBlocks_nil, List.append_nil,
        List.nil_append]
    have hPC : progressCalls (al3d_fw_update_start image records true
        AL3D_UNSIGNED_UPDATE_MODE_FULL).1 =
        (List.range' 1 (image.length / 512)).map
          (fun j : Nat => floatDivProgress (j % 65536)
            (image.length / 512 % 65536)) ++
        [floatDivProgress (image.length / 512 % 65536)
            (image.length / 512 % 65536), Ev.progress 1] := by
      rw [h1]
      simp only [progressCalls_cmd_cons, progressCalls_append, hpcp,
        progressCalls_floatDivProgress_cons, progressCalls_progress_cons,
        progressCalls_nil, List.nil_append, hpc]
    refine ⟨by rw [h1], by rw [hDB, hblen], ?_, ?_, ?_, ?_⟩
    · rw [hDB]
      exact hball
    · rw [hDB, hbflat]
      simp
    · rw [hPC]
      simp
    · intro hlt _
      rw [hPC]
      have h0 : image.length / 512 = 0 := by omega
      simp [h0, floatDivProgress]
  | some e =>
    have h1 : al3d_fw_update_start image records true
        AL3D_UNSIGNED_UPDATE_MODE_FULL =
        (Ev.cmd (Cmd.alSet 0x00030001 ((image.length / 512) * 512 +
            (if image.length % 512 > 0 then 512 else 0))) ::
          (Ev.cmd Cmd.alGet ::
            (al3dBlockLoop image (image.length / 512 % 65536) true
                (image.length / 512 + 1) image.length 0 0 ++
              (Ev.cmd (Cmd.alSet 0x00030101 ((image.length / 512) * 512 +
                  (if image.length % 512 > 0 then 512 else 0))) ::
                pollEvs))), some e) := by
      simp [al3d_fw_update_start, hpoll]
    have hDB : dataBlocks (al3d_fw_update_start image records true
        AL3D_UNSIGNED_UPDATE_MODE_FULL).1 =
        dataBlocks (al3dBlockLoop image (image.length / 512 % 65536) true
          (image.length / 512 + 1) image.length 0 0) := by
      rw [h1]
      simp only [dataBlocks_alSet_cons, dataBlocks_alGet_cons,
        dataBlocks_append, hdbp, dataBlocks_nil, List.append_nil,
        List.nil_append]
    have hPC : progressCalls (al3d_fw_update_start image records true
        AL3D_UNSIGNED_UPDATE_MODE_FULL).1 =
        (List.range' 1 (image.length / 512)).map
          (fun j : Nat => floatDivProgress (j % 65536)
            (image.length / 512 % 65536)) := by
      rw [h1]
      simp only [progressCalls_cmd_cons, progressCalls_append, hpcp,
        progressCalls_nil, List.append_nil, hpc]
    refine ⟨by rw [h1], by rw [hDB, hblen], ?_, ?_, ?_, ?_⟩
    · rw [hDB]
      exact hball
    · rw [hDB, hbflat]
      simp
    · rw [hPC]
      simp
    · intro _ hnone
      simp at hnone

theorem smallImage_length : smallImage.length = 100 :=
  List.length_replicate 100 3

/-- Witness for al3d_blocks_amended: the block count at the 513-byte
sampleImage, and the NaN-then-1.0 progress tail at the 100-byte
smallImage (blocks_count = 0, float 0/0) with an immediately-completing
record stream. -/
theorem al3d_blocks_amended_witness :
    (dataBlocks (al3d_fw_update_start sampleImage zeroRecords true
      AL3D_UNSIGNED_UPDATE_MODE_FULL).1).length =
      (sampleImage.length + 511) / 512 ∧
    progressCalls (al3d_fw_update_start smallImage zeroRecords true
      AL3D_UNSIGNED_UPDATE_MODE_FULL).1 =
      [Ev.progressNaN, Ev.progress 1] :=
  ⟨(al3d_blocks_amended sampleImage zeroRecords).2.1,
    (al3d_blocks_amended smallImage zeroRecords).2.2.2.2.2
      (by rw [smallImage_length]; norm_num) (by decide)⟩

/-! Behaviour of the disconnect-wait state machine (claim C9). -/

theorem dfuWaitLoop_disconnect (poll : Nat → PollRes) :
    ∀ i fuel p, i < fuel → poll (p + i) = PollRes.absent →
      (∀ j, j < i → poll (p + j) = PollRes.present) →
      dfuWaitLoop poll fuel p =
        Except.ok (p + i + 1, ExitKind.disconnected) := by
  intro i
  induction i with
  | zero =>
    intro fuel p hif habs hben
    obtain ⟨f, rfl⟩ : ∃ f, fuel = f + 1 := ⟨fuel - 1, by omega⟩
    rw [Nat.add_zero] at habs
    simp [dfuWaitLoop, habs]
  | succ m ih =>
    intro fuel p hif habs hben
    obtain ⟨f, rfl⟩ : ∃ f, fuel = f + 1 := ⟨fuel - 1, by omega⟩
    have hp0 : poll p = PollRes.present := by
      have := hben 0 (Nat.succ_pos m)
      rwa [Nat.add_zero] at this
    have hrec := ih f (p + 1) (by omega)
      (by rw [show p + 1 + m = p + (m + 1) by omega]; exact habs)
      (fun j hj => by
        rw [show p + 1 + j = p + (j + 1) by omega]
        exact hben (j + 1) (by omega))
    simp only [dfuWaitLoop, hp0, hrec]
    congr 2
    omega

/-- Claim C9: (a) enter_update_state never propagates an error to its
caller — for every iteration bound, DFU-send outcome and poll oracle
(including polls that raise exceptions) it returns normally, the whole try
body being wrapped in catch-all handlers that only log; (b) if the
presence predicate reports the device gone at poll i (the first i polls
reporting it present), the function returns immediately with exactly i+1
polls performed — no poll i+1 occurs. -/
theorem enter_update_state_spec :
    (∀ (maxIter : Nat) (sendFails : Bool) (poll : Nat → PollRes),
      ∃ r, enter_update_state maxIter sendFails poll = Except.ok r) ∧
    (∀ (maxIter : Nat) (poll : Nat → PollRes) (i : Nat), i < maxIter →
      poll i = PollRes.absent → (∀ j, j < i → poll j = PollRes.present) →
      enter_update_state maxIter false poll =
        Except.ok (EnterResult.completed (i + 1) ExitKind.disconnected)) := by
  constructor
  · intro maxIter sendFails poll
    rcases h : enterUpdateTryBody maxIter sendFails poll with e | px
    · exact ⟨EnterResult.errorLogged e, by simp [enter_update_state, h]⟩
    · obtain ⟨p, x⟩ := px
      exact ⟨EnterResult.completed p x, by simp [enter_update_state, h]⟩
  · intro maxIter poll i hi habs hben
    have hloop := dfuWaitLoop_disconnect poll i maxIter 0 hi
      (by simpa using habs) (fun j hj => by simpa using hben j hj)
    have hbody : enterUpdateTryBody maxIter false poll =
        Except.ok (i + 1, ExitKind.disconnected) := by
      simp only [enterUpdateTryBody, Bool.false_eq_true, if_false, hloop]
      congr 2
      omega
    simp [enter_update_state, hbody]

/-- Witness for enter_update_state_spec: with the device present for two
polls and gone at the third, the state machine completes after exactly
three polls. -/
theorem enter_update_state_spec_witness :
    enter_update_state 5 false samplePoll =
      Except.ok (EnterResult.completed 3 ExitKind.disconnected) :=
  enter_update_state_spec.2 5 samplePoll 2 (by decide) (by decide) (by decide)

/-- Claim C10: check_fw_compatibility accepts every image — the
version-extraction and minimum-version comparison are compiled out
(#if 0 / #else return 1 in ds5-device.cpp:475-489), so no candidate image
is ever rejected as incompatible. -/
theorem check_fw_compatibility_always_true :
    ∀ image : List Nat, check_fw_compatibility image = true :=
  fun _ => rfl

end DS5
